import Mathlib

/-!
# Verification of the NeuVector file-monitor core (`share/fsmon/monitor.go`)

A shallow embedding of the file-integrity monitor: the group registry,
the learning engine, the event aggregator and classifier, and the
public operations (`StartWatch`, `UpdateAccessRules`, `ContainerCleanup`,
`HandleWatchedFiles`, `cbNotify`, getters).  Go maps become association
lists, `utils.Set` becomes a duplicate-free `List String`, kernel/file
system effects become an explicit `Env` record of oracles, and monitor
messages are returned as lists instead of being pushed through the
report callback.  Machine integers (event masks) are `Nat` with bitwise
operations; all masks stay far below any overflow boundary.
-/

namespace Fsmon

/-! ## String helpers (embeddings of the Go standard-library calls used) -/

/-- `strings.HasSuffix`: `suf` is a suffix of `s`. -/
def strHasSuffix (s suf : String) : Bool := List.isSuffixOf suf.data s.data

/-- `strings.HasPrefix` on char lists. -/
def strStartsWith (s pre : String) : Bool := List.isPrefixOf pre.data s.data

/-- Helper for `strings.Index`: first index `≥ i` where `pat` occurs in `s`. -/
def strIndexFrom (pat : List Char) : List Char → Nat → Option Nat
  | [], i => if List.isPrefixOf pat [] then some i else none
  | c :: t, i =>
    if List.isPrefixOf pat (c :: t) then some i else strIndexFrom pat t (i + 1)

/-- `strings.Index s pat`: index of the first occurrence of `pat` in `s`
(`none` models Go's `-1`).  All strings in play are ASCII, so the char
index coincides with Go's byte index. -/
def strIndex (s pat : String) : Option Nat := strIndexFrom pat.data s.data 0

/-- Drop the first `n` characters of a string (Go slicing `s[n:]` on ASCII). -/
def strDrop (s : String) : Nat → String := fun n => String.mk (s.data.drop n)

/-- Split a char list at its last `'/'`: returns the part strictly before
the last slash, or `none` when no slash occurs. -/
def beforeLastSlash (cs : List Char) : Option (List Char) :=
  match cs.reverse.dropWhile (fun c => c ≠ '/') with
  | [] => none
  | _ :: rest => some rest.reverse

/-- `filepath.Dir` for the clean, slash-separated paths this subsystem
manipulates (no `.`/`..` segments, no doubled slashes): all but the last
path element; `"."` when there is no slash; `"/"` for a top-level entry. -/
def goDir (p : String) : String :=
  match beforeLastSlash p.data with
  | none => "."
  | some [] => "/"
  | some cs => String.mk cs

/-- `filepath.Join a p` for the clean absolute/relative shapes used here:
concatenation with exactly one separating slash. -/
def joinPath (a p : String) : String :=
  if p = "" then a
  else if strStartsWith p "/" then a ++ p
  else a ++ "/" ++ p

/-! ## A miniature regular-expression engine

The source matches paths with Go's `regexp` package.  The profile
regexes that reach `regexp.Compile` in this subsystem are built from
path literals, `\.`-style escapes and the Kleene pattern `.*` (see the
`ImportantFiles` table in the source), so we embed exactly that
fragment: literal characters, `.` (any char), `\c` (escaped literal)
and postfix `*`, matched against the whole string (the source always
anchors with `^...$`).  `reCompile` plays the role of
`regexp.Compile`, rejecting patterns outside the fragment, and the
source's error branch (compile failure ⇒ no match) is preserved. -/

/-- Characters that stand for themselves in a pattern. -/
def plainChar (c : Char) : Bool :=
  c.isAlphanum || c = '/' || c = '-' || c = '_' || c = ' '

/-- May `c` appear escaped as `\c`? -/
def escChar (c : Char) : Bool :=
  plainChar c || c = '.' || c = '*' || c = '\\'

/-- Pattern well-formedness: the fragment accepted by our `reCompile`.
A `*` must follow a literal, a dot or an escape; escapes must be complete. -/
def reValid : List Char → Bool
  | [] => true
  | '\\' :: c :: '*' :: ps => escChar c && reValid ps
  | '\\' :: c :: ps => escChar c && reValid ps
  | ['\\'] => false
  | c :: '*' :: ps => (plainChar c || c = '.') && reValid ps
  | c :: ps => (plainChar c || c = '.') && reValid ps

/-- Fuel-indexed matcher (every recursive call strictly shrinks
`p.length + s.length`, so `p.length + s.length` fuel is always enough;
the fuel keeps the recursion structural and kernel-reducible). -/
def reMatchF : Nat → List Char → List Char → Bool
  | 0, p, s => p.isEmpty && s.isEmpty
  | _ + 1, [], [] => true
  | _ + 1, [], _ :: _ => false
  | n + 1, '\\' :: c :: '*' :: ps, s =>
    reMatchF n ps s ||
      (match s with
       | [] => false
       | x :: s' => x = c && reMatchF n ('\\' :: c :: '*' :: ps) s')
  | _ + 1, '\\' :: _ :: _, [] => false
  | n + 1, '\\' :: c :: ps, x :: s' => x = c && reMatchF n ps s'
  | _ + 1, ['\\'], _ => false
  | n + 1, c :: '*' :: ps, s =>
    reMatchF n ps s ||
      (match s with
       | [] => false
       | x :: s' => (c = '.' || x = c) && reMatchF n (c :: '*' :: ps) s')
  | _ + 1, _ :: _, [] => false
  | n + 1, c :: ps, x :: s' => (c = '.' || x = c) && reMatchF n ps s'

/-- Full-string matching of a pattern in the fragment: `reMatch p s` is
true iff `s` is in the language of `p` (patterns are implicitly anchored
on both sides, mirroring the `^...$` wrapper the source adds). -/
def reMatch (p s : List Char) : Bool :=
  reMatchF (p.length + s.length) p s

/-- `regexp.Compile`: `some` of the parsed pattern when the string lies in
the supported fragment, `none` for a compile error. -/
def reCompile (pat : String) : Option (List Char) :=
  if reValid pat.data then some pat.data else none

/-! ## Profile and filter data model (`share.CLUSFileMonitorFilter` etc.) -/

/-- `share.CLUSFileMonitorFilter`. -/
structure MonitorFilter where
  behavior : String
  path : String
  regex : String
  recursive : Bool
  customerAdd : Bool
  derivedGroup : String
deriving DecidableEq, Repr

/-- `share.CLUSFileMonitorProfile` (the fields the monitor reads). -/
structure MonitorProfile where
  group : String
  mode : String
  filters : List MonitorFilter
  filtersCRD : List MonitorFilter
deriving DecidableEq, Repr

/-- Modelled from the spec: the three policy-mode constants
(`share.PolicyModeLearn/Evaluate/Enforce` are declared outside this
repository slice); only their distinctness matters. -/
def policyModeLearn : String := "Discover"

/-- Modelled from the spec: the `Evaluate` policy mode constant. -/
def policyModeEvaluate : String := "Monitor"

/-- Modelled from the spec: the `Enforce` policy mode constant. -/
def policyModeEnforce : String := "Protect"

/-- Modelled from the spec: `share.FileAccessBehaviorBlock`. -/
def behaviorBlock : String := "block"

/-- `filterIndexKey`: the canonical `"<path>/<regex>"` filter identity. -/
def filterIndexKey (flt : MonitorFilter) : String :=
  flt.path ++ "/" ++ flt.regex

/-- `filterPathMatch` (source, lines 389–400): empty regex compares the
path literally; otherwise the candidate is matched against
`^<dir(candidate)>/<regex>$`, with a failed compile yielding `false`. -/
def filterPathMatch (path : String) (flt : MonitorFilter) : Bool :=
  if flt.regex = "" then flt.path = path
  else
    let fstr := goDir path ++ "/" ++ flt.regex
    match reCompile fstr with
    | some pat => reMatch pat path.data
    | none => false

/-- The match predicate as the spec's words describe it (§4.2): the
anchored regex is built from the directory of the *filter's* path.
Kept separate so it can be compared with the source's `filterPathMatch`. -/
def filterPathMatchSpec (path : String) (flt : MonitorFilter) : Bool :=
  if flt.regex = "" then flt.path = path
  else
    let fstr := goDir flt.path ++ "/" ++ flt.regex
    match reCompile fstr with
    | some pat => reMatch pat path.data
    | none => false

/-! ## Association lists and string sets

Go maps become association lists (first binding wins on lookup;
insertion replaces in place), `utils.Set` becomes a duplicate-free
`List String` extended only through `setAdd`. -/

/-- Map lookup (`m[k]`, with the `ok` flag as `Option`). -/
def alLookup {κ α : Type} [DecidableEq κ] (m : List (κ × α)) (k : κ) :
    Option α :=
  match m with
  | [] => none
  | (k', v) :: t => if k' = k then some v else alLookup t k

/-- Map store (`m[k] = v`). -/
def alInsert {κ α : Type} [DecidableEq κ] (m : List (κ × α)) (k : κ)
    (v : α) : List (κ × α) :=
  match m with
  | [] => [(k, v)]
  | (k', v') :: t =>
    if k' = k then (k, v) :: t else (k', v') :: alInsert t k v

/-- Map delete (`delete(m, k)`). -/
def alErase {κ α : Type} [DecidableEq κ] (m : List (κ × α)) (k : κ) :
    List (κ × α) :=
  match m with
  | [] => []
  | (k', v') :: t => if k' = k then alErase t k else (k', v') :: alErase t k

/-- `utils.Set.Contains`. -/
def setContains (s : List String) (x : String) : Bool := s.contains x

/-- `utils.Set.Add` (no duplicates). -/
def setAdd (s : List String) (x : String) : List String :=
  if s.contains x then s else s ++ [x]

/-- `utils.Set.Cardinality` of our set representation. -/
def setCard (s : List String) : Nat := s.length

/-! ## Kernel-event constants (fixed Linux inotify ABI values) -/

def IN_ACCESS : Nat := 0x1
def IN_MODIFY : Nat := 0x2
def IN_ATTRIB : Nat := 0x4
def IN_CLOSE_WRITE : Nat := 0x8
def IN_MOVED_FROM : Nat := 0x40
def IN_MOVED_TO : Nat := 0x80
def IN_MOVE : Nat := 0xC0
def IN_CREATE : Nat := 0x100
def IN_DELETE : Nat := 0x200
def IN_DELETE_SELF : Nat := 0x400
def IN_MOVE_SELF : Nat := 0x800
def IN_UNMOUNT : Nat := 0x2000
def IN_IGNORED : Nat := 0x8000
def IN_ISDIR : Nat := 0x40000000

/-- `inodeMovedMask = IN_MOVE | IN_MOVE_SELF | IN_MOVED_TO`. -/
def inodeMovedMask : Nat := IN_MOVE ||| IN_MOVE_SELF ||| IN_MOVED_TO

/-! ## Event taxonomy (`fileEvent*`, `1 << iota`) -/

def fileEventAttr : Nat := 1
def fileEventDirAttr : Nat := 2
def fileEventCreate : Nat := 4
def fileEventModified : Nat := 8
def fileEventRemoved : Nat := 16
def fileEventSymCreate : Nat := 32
def fileEventSymModified : Nat := 64
def fileEventDirSymCreate : Nat := 128
def fileEventDirSymModified : Nat := 256
def fileEventReplaced : Nat := 512
def fileEventDirCreate : Nat := 1024
def fileEventDirRemoved : Nat := 2048
def fileEventAccessed : Nat := 4096
def fileEventDenied : Nat := 8192
def fileEventMovedFrom : Nat := 16384
def fileEventMovedTo : Nat := 32768
def fileEventDirMovedFrom : Nat := 65536
def fileEventDirMovedTo : Nat := 131072

/-- The `fileEventMsg` table (event id → canonical message string). -/
def fileEventMsg (e : Nat) : Option String :=
  if e = fileEventAttr then some "File attribute is changed."
  else if e = fileEventDirAttr then some "Directory attribute is changed."
  else if e = fileEventModified then some "File was modified."
  else if e = fileEventReplaced then some "File was replaced."
  else if e = fileEventCreate then some "File created in watched directory."
  else if e = fileEventRemoved then some "File deleted from watched directory."
  else if e = fileEventSymCreate then some "File symlink was created."
  else if e = fileEventSymModified then some "File symlink was modified."
  else if e = fileEventDirSymCreate then some "Directory symlink was created."
  else if e = fileEventDirSymModified then some "Directory symlink was modified."
  else if e = fileEventDirCreate then some "Directory was created."
  else if e = fileEventDirRemoved then some "Directory was deleted."
  else if e = fileEventAccessed then some "File was accessed."
  else if e = fileEventDenied then some "File access was denied."
  else if e = fileEventMovedFrom then some "File was moved from."
  else if e = fileEventMovedTo then some "File was moved to."
  else if e = fileEventDirMovedFrom then some "Directory was moved from."
  else if e = fileEventDirMovedTo then some "Directory was moved to."
  else none

/-! ## Runtime state -/

/-- `ProcInfo` (the fields the monitor reads and reports). -/
structure ProcInfo where
  rootPid : Nat
  name : String
  path : String
  cmds : List String
  pid : Nat
  euid : Nat
  euser : String
  ppid : Nat
  pname : String
  ppath : String
  deny : Bool
deriving DecidableEq, Repr

/-- `osutil.FileInfoExt`, flattened: the `Filter` back-reference (a
`*filterRegex`) becomes the compiled key/recursive pair, `FileMode` is
kept as its only observed projection (`IsDir`), and the content hash is
a `Nat` whose conventional zero value plays `osutil.HashZero`
("never computed"; real hashes are modelled as nonzero).  `Children`
is carried beside the directory entry where it is built, not here. -/
structure FileInfoExt where
  containerId : String
  path : String
  isDirMode : Bool
  link : String
  hash : Nat
  protect : Bool
  userAdded : Bool
  filterKey : String
  filterRecursive : Bool
deriving DecidableEq, Repr

/-- `fileMod`: one pending aggregated event. -/
structure FileMod where
  mask : Nat
  delay : Nat
  finfo : FileInfoExt
  pInfo : List ProcInfo
deriving DecidableEq, Repr

/-- `groupInfo`: per-container monitoring state. -/
structure GroupInfo where
  bNeuvector : Bool
  profile : MonitorProfile
  mode : String
  applyRules : List (String × List String)
  learnRules : List (String × List String)
  startAt : Nat
deriving DecidableEq, Repr

/-- Modelled from the spec: the fanotify driver's per-container mode
bundle stored by `FaNotify.SetMode` (driver code lives outside this
repository slice); the values stored are the ones `StartWatch` computes. -/
structure FanModeEntry where
  access : Bool
  perm : Bool
  capBlock : Bool
  isNV : Bool
deriving DecidableEq, Repr

/-- `share.CLUSFileAccessFilterRule` (the fields `UpdateAccessRules`
reads; the type itself is declared outside this repository slice). -/
structure AccessFilterRule where
  apps : List String
  customerAdd : Bool
deriving DecidableEq, Repr

/-- `share.CLUSFileAccessRule`: filter-key-indexed access rules. -/
structure AccessRule where
  filters : List (String × AccessFilterRule)
deriving DecidableEq, Repr

/-- `FsmonConfig`. -/
structure FsmonConfig where
  profile : MonitorProfile
  rule : Option AccessRule
deriving DecidableEq, Repr

/-- The `FileWatch` state.  `fileEvents` and `groups` are the two
mutex-guarded maps of the source; the remaining fields model the two
notifier drivers' tables (modelled from the spec: the drivers keep
per-path marks/watches and per-container mode and rule entries, armed
and released through the calls the monitor makes). -/
structure FileWatch where
  bEnable : Bool
  aufs : Bool
  bNVProtect : Bool
  fileEvents : List (String × FileMod)
  groups : List (Nat × GroupInfo)
  fanPaths : List String
  fanDirs : List String
  inoPaths : List String
  inoDirs : List String
  fanModes : List (Nat × FanModeEntry)
  fanRules : List (Nat × AccessRule)
deriving DecidableEq, Repr

/-- Post-event `lstat`/`stat` result (the projections the source reads). -/
structure StatInfo where
  isDir : Bool
  isSymlink : Bool
deriving DecidableEq, Repr

/-- `workerlet.DirData` (fields consumed by `getDirFileList`). -/
structure DirData where
  dir : String
  modeIsDir : Bool
deriving DecidableEq, Repr

/-- `workerlet.FileData` (fields consumed by `getDirFileList`). -/
structure FileData where
  file : String
  modeIsDir : Bool
deriving DecidableEq, Repr

/-- `workerlet.WalkPathResult`. -/
structure WalkResult where
  dirs : List DirData
  files : List FileData
deriving DecidableEq, Repr

/-- The external world: process liveness, filesystem probes, the walker
task, and the two injected estimation callbacks.  Each field models one
effectful call the monitor makes (`osutil.IsPidValid`, `os.Lstat`,
`os.Stat`, `os.Readlink`, `osutil.GetFileHash` — `none` is the error
case and values are nonzero, `osutil.GetFileInfoExtFromPath`,
the walker round-trip of `getRootFs` — `none` collapses its
timeout/semaphore/unmarshal error exits, `osutil.IsPackageLib` and the
`EstimateRuleSrc` callback). -/
structure Env where
  pidValid : Nat → Bool
  lstat : String → Option StatInfo
  statF : String → Option StatInfo
  readlink : String → Option String
  fileHash : String → Option Nat
  fileInfoList : Nat → String → Option (List FileInfoExt)
  walk : Nat → Option WalkResult
  isPackageLib : String → Bool
  estRuleSrc : String → String → Bool → String

/-- Modelled from the spec: `global.SYS.ContainerFilePath` — container
paths are addressed as `/proc/<pid>/root/<in-container path>`. -/
def containerFilePath (pid : Nat) (path : String) : String :=
  "/proc/" ++ toString pid ++ "/root" ++ path

/-- Decimal value of a digit run. -/
def digitsToNat (ds : List Char) : Nat :=
  ds.foldl (fun acc c => acc * 10 + (c.toNat - '0'.toNat)) 0

/-- Read a leading (nonempty) run of decimal digits. -/
def readDigits (cs : List Char) : Option (Nat × List Char) :=
  let ds := cs.takeWhile Char.isDigit
  if ds.isEmpty then none else some (digitsToNat ds, cs.drop ds.length)

/-- Modelled from the spec: `global.SYS.ParseContainerFilePath` — the
inverse of `containerFilePath`.  A path of the shape
`/proc/<pid>/root<rest>` with `<rest>` empty or slash-led parses to
`(pid, rest)`; anything else yields the zero value `(0, "")`. -/
def parseContainerFilePath (s : String) : Nat × String :=
  if strStartsWith s "/proc/" then
    match readDigits (s.data.drop 6) with
    | some (pid, rest) =>
      if List.isPrefixOf "/root".data rest then
        let tail := rest.drop 5
        match tail with
        | [] => (pid, "")
        | c :: _ => if c = '/' then (pid, String.mk tail) else (0, "")
      else (0, "")
    | none => (0, "")
  else (0, "")

/-! ## Notifier driver model

The fanotify/inotify drivers live outside this repository slice; per
the spec they keep per-path marks and watches, armed and released by
the calls below.  We model each table as the set of armed paths. -/

/-- Add a path to a driver table (idempotent, as re-arming is). -/
def tableAdd (t : List String) (p : String) : List String :=
  if t.contains p then t else t ++ [p]

/-- Remove a path from a driver table. -/
def tableRemove (t : List String) (p : String) : List String :=
  t.filter (fun q => q ≠ p)

/-- Modelled from the spec: `FaNotify.SetMode` records the per-container
mode bundle (`access`, `perm`, `capBlock`, `isNV`). -/
def fanSetMode (w : FileWatch) (rootPid : Nat) (access perm capBlock isNV : Bool) :
    FileWatch :=
  { w with fanModes := alInsert w.fanModes rootPid ⟨access, perm, capBlock, isNV⟩ }

/-- `FileWatch.addFile` (source, lines 552–563): arm the fanotify mark;
arm an inotify watch too unless `bIncInotify` is false or the filter
key ends in `/.*` (its directory parent already covers it). -/
def addFile (w : FileWatch) (bIncInotify : Bool) (finfo : FileInfoExt) :
    FileWatch :=
  if !w.bEnable then w
  else
    let w1 := { w with fanPaths := tableAdd w.fanPaths finfo.path }
    if bIncInotify && !strHasSuffix finfo.filterKey "/.*" then
      { w1 with inoPaths := tableAdd w1.inoPaths finfo.path }
    else w1

/-- `FileWatch.removeFile`: release both drivers' registrations. -/
def removeFile (w : FileWatch) (fullpath : String) : FileWatch :=
  { w with
    fanPaths := tableRemove w.fanPaths fullpath
    fanDirs := tableRemove w.fanDirs fullpath
    inoPaths := tableRemove w.inoPaths fullpath
    inoDirs := tableRemove w.inoDirs fullpath }

/-- `FileWatch.addDir` (source, lines 570–584). -/
def addDir (w : FileWatch) (bIncInotify : Bool) (finfo : FileInfoExt)
    (_children : List FileInfoExt) : FileWatch :=
  if !w.bEnable then w
  else
    let w1 := { w with fanDirs := tableAdd w.fanDirs finfo.path }
    if bIncInotify then { w1 with inoDirs := tableAdd w1.inoDirs finfo.path }
    else w1

/-- Modelled from the spec: both drivers' `ContainerCleanup` release
every mark/watch under `/proc/<rootPid>/root` and the per-container
mode and rule entries. -/
def notifierCleanup (w : FileWatch) (rootPid : Nat) : FileWatch :=
  let und := fun (p : String) => !strStartsWith p (containerFilePath rootPid "")
  { w with
    fanPaths := w.fanPaths.filter und
    fanDirs := w.fanDirs.filter und
    inoPaths := w.inoPaths.filter und
    inoDirs := w.inoDirs.filter und
    fanModes := alErase w.fanModes rootPid
    fanRules := alErase w.fanRules rootPid }

/-! ## Reporting -/

/-- `MonitorMessage` (fields the monitor fills). -/
structure MonitorMessage where
  id : String
  path : String
  package : Bool
  procName : String
  procPath : String
  procCmds : List String
  procPid : Nat
  procEUid : Nat
  procEUser : String
  procPPid : Nat
  procPName : String
  procPPath : String
  group : String
  msg : String
  action : String
deriving DecidableEq, Repr

/-- Modelled from the spec: the two `share.PolicyAction*` constants. -/
def policyActionViolate : String := "violate"

/-- Modelled from the spec: the `Deny` action constant. -/
def policyActionDeny : String := "deny"

/-- The process-free message of `sendMsg`'s `pInfo == nil` branch. -/
def mkPlainMsg (env : Env) (cid path eventMsg : String) (event : Nat) :
    MonitorMessage :=
  { id := cid, path := path
    package := env.isPackageLib path
    procName := "", procPath := "", procCmds := [], procPid := 0
    procEUid := 0, procEUser := "", procPPid := 0, procPName := ""
    procPPath := ""
    group := env.estRuleSrc cid path (event = fileEventDenied)
    msg := eventMsg, action := policyActionViolate }

/-- One per-process message of `sendMsg`'s loop body. -/
def mkProcMsg (env : Env) (cid path eventMsg : String) (event : Nat)
    (pi : ProcInfo) : MonitorMessage :=
  let base := mkPlainMsg env cid path eventMsg event
  let m := { base with
    procName := pi.name, procPath := pi.path, procCmds := pi.cmds
    procPid := pi.pid, procEUid := pi.euid, procEUser := pi.euser
    procPPid := pi.ppid, procPName := pi.pname, procPPath := pi.ppath }
  if pi.deny then
    { m with action := policyActionDeny
             msg := "File access was denied." }
  else m

/-- `sendMsg`'s process loop: the first entry is always reported, each
later entry only when it differs from its predecessor
(`reflect.DeepEqual` suppression of consecutive duplicates). -/
def sendMsgLoop (env : Env) (cid path eventMsg : String) (event : Nat) :
    ProcInfo → List ProcInfo → List MonitorMessage
  | _, [] => []
  | prev, pi :: rest =>
    (if prev = pi then [] else [mkProcMsg env cid path eventMsg event pi]) ++
      sendMsgLoop env cid path eventMsg event pi rest

/-- `FileWatch.sendMsg` (source, lines 273–329), returning the emitted
messages.  An empty process list is the source's `nil` case (aggregated
entries never hold an empty non-nil slice). -/
def sendMsg (env : Env) (cid path : String) (event : Nat)
    (pInfo : List ProcInfo) (_mode : String) : List MonitorMessage :=
  match fileEventMsg event with
  | none => []
  | some eventMsg =>
    match pInfo with
    | [] => [mkPlainMsg env cid path eventMsg event]
    | pi :: rest =>
      mkProcMsg env cid path eventMsg event pi ::
        sendMsgLoop env cid path eventMsg event pi rest

/-! ## Learning engine -/

/-- One process of `addLearnedRules`' inner loop: a nonempty process
path in neither the apply set nor the accumulating learned set is
added. -/
def procStep (applyR : List String) (acc : List String) (pf : ProcInfo) :
    List String :=
  if pf.path ≠ "" ∧ ¬setContains applyR pf.path ∧
      ¬setContains acc pf.path then
    setAdd acc pf.path
  else acc

/-- `addLearnedRules` (source, lines 402–424): learning happens only
when `applyRules` already holds an entry for the filter key; each
process path that is nonempty and in neither set is added to the
learned set, which is stored back when it ended up nonempty. -/
def addLearnedRules (grp : GroupInfo) (flt : MonitorFilter)
    (pInfo : List ProcInfo) : GroupInfo :=
  let index := filterIndexKey flt
  match alLookup grp.applyRules index with
  | none => grp
  | some applyR =>
    let learn0 := (alLookup grp.learnRules index).getD []
    let learn1 := pInfo.foldl (procStep applyR) learn0
    if 0 < setCard learn1 then
      { grp with learnRules := alInsert grp.learnRules index learn1 }
    else grp

/-- One filter of the learning pass: only customer-added filters whose
match predicate accepts the path learn. -/
def learnStep (path : String) (pInfo : List ProcInfo) (g : GroupInfo)
    (flt : MonitorFilter) : GroupInfo :=
  if flt.customerAdd && filterPathMatch path flt then
    addLearnedRules g flt pInfo
  else g

/-- The learning pass of `learnFromEvents`: fold `addLearnedRules` over
the profile's normal filters and then its CRD filters, restricted to
customer-added filters whose match predicate accepts the path. -/
def learnPass (grp : GroupInfo) (path : String) (pInfo : List ProcInfo) :
    GroupInfo :=
  grp.profile.filtersCRD.foldl (learnStep path pInfo)
    (grp.profile.filters.foldl (learnStep path pInfo) grp)

/-- `isRunTimeAddedFile` (source, lines 669–673). -/
def isRunTimeAddedFile (path : String) : Bool :=
  strHasSuffix path "/root/etc/hosts" ||
  strHasSuffix path "/root/etc/hostname" ||
  strHasSuffix path "/root/etc/resolv.conf"

/-- The link rewriting of `learnFromEvents` (source, lines 461–466):
report the resolved link target, stripping everything up to and
including a `/root` that occurs at a positive index (the
`/proc/<pid>/root` host prefix), keeping the slash that follows it. -/
def stripLinkRoot (link : String) : String :=
  match strIndex link "/root/" with
  | some i => if 0 < i then strDrop link (i + 5) else link
  | none => link

/-- `FileWatch.learnFromEvents` (source, lines 426–469): look up the
group; in Learn mode with process info present run the learning pass;
suppress reports for runtime-added boot files that are merely accessed
or younger than 60 seconds; report non-access events always and access
events only in Enforce/Evaluate mode, at the resolved link target when
one is recorded.  `now` is the wall clock at handling time (seconds). -/
def learnFromEvents (env : Env) (w : FileWatch) (rootPid : Nat)
    (fmod : FileMod) (path : String) (event : Nat) (now : Nat) :
    FileWatch × List MonitorMessage :=
  match alLookup w.groups rootPid with
  | none => (w, [])
  | some grp =>
    let mode := grp.mode
    let w' :=
      if mode = policyModeLearn ∧ fmod.pInfo ≠ [] then
        { w with groups := alInsert w.groups rootPid (learnPass grp path fmod.pInfo) }
      else w
    if isRunTimeAddedFile (joinPath "/root" path) ∧
        (event = fileEventAccessed ∨ now - grp.startAt < 60) then
      (w', [])
    else if event ≠ fileEventAccessed ∨
        (mode = policyModeEnforce ∨ mode = policyModeEvaluate) then
      let rptPath :=
        if fmod.finfo.link ≠ "" then stripLinkRoot fmod.finfo.link else path
      (w', sendMsg env fmod.finfo.containerId rptPath event fmod.pInfo mode)
    else (w', [])

/-- `FileWatch.UpdateAccessRules` (source, lines 471–500): replace the
group's `applyRules` wholesale with the customer-added entries of the
pushed rule (leaving `learnRules` untouched) and forward the rule to
the fanotify driver. -/
def updateAccessRules (w : FileWatch) (_name : String) (rootPid : Nat)
    (conf : AccessRule) : FileWatch :=
  if !w.bEnable then w
  else
    match alLookup w.groups rootPid with
    | none => w
    | some grp =>
      let applyR := conf.filters.foldl
        (fun acc kv =>
          if kv.2.customerAdd then
            alInsert acc kv.1 (kv.2.apps.foldl setAdd [])
          else acc)
        ([] : List (String × List String))
      { w with
        groups := alInsert w.groups rootPid { grp with applyRules := applyR }
        fanRules := alInsert w.fanRules rootPid conf }

/-- `FileWatch.cbNotify` (source, lines 516–550): `IN_IGNORED`/`IN_UNMOUNT`
release the path's registrations and are otherwise dropped; any other
event merges into the pending map — mask union, delay reset, process
info appended only when its pid is new. -/
def cbNotify (w : FileWatch) (filePath : String) (mask : Nat)
    (finfo : FileInfoExt) (pInfo : Option ProcInfo) : FileWatch :=
  if mask &&& IN_IGNORED ≠ 0 ∨ mask &&& IN_UNMOUNT ≠ 0 then
    removeFile w filePath
  else
    match alLookup w.fileEvents filePath with
    | some fm =>
      let fm1 := { fm with mask := fm.mask ||| mask, delay := 0 }
      let fm2 :=
        match pInfo with
        | none => fm1
        | some pi =>
          if fm1.pInfo.any (fun p => p.pid = pi.pid) then fm1
          else { fm1 with pInfo := fm1.pInfo ++ [pi] }
      { w with fileEvents := alInsert w.fileEvents filePath fm2 }
    | none =>
      let fmod : FileMod :=
        { mask := mask, delay := 0, finfo := finfo
          pInfo := pInfo.toList }
      { w with fileEvents := alInsert w.fileEvents filePath fmod }

/-- `FileWatch.ContainerCleanup` (source, lines 952–976): release the
drivers' registrations, drop the container's pending events, and drop
the group (`bLeave`) or reset both rule maps (profile reload). -/
def containerCleanup (w : FileWatch) (rootPid : Nat) (bLeave : Bool) :
    FileWatch :=
  if !w.bEnable then w
  else
    let w1 := notifierCleanup w rootPid
    let w2 := { w1 with
      fileEvents :=
        w1.fileEvents.filter
          (fun kv => (parseContainerFilePath kv.1).1 ≠ rootPid) }
    match alLookup w2.groups rootPid with
    | none => w2
    | some grp =>
      if bLeave then { w2 with groups := alErase w2.groups rootPid }
      else
        { w2 with
          groups := alInsert w2.groups rootPid
            { grp with learnRules := [], applyRules := [] } }

/-- `share.CLUSFileAccessRuleReq`: one learned `(group, filter, path)`
triple forwarded to the controller. -/
structure AccessRuleReq where
  groupName : String
  filter : String
  path : String
deriving DecidableEq, Repr

/-- One group of `reportLearningRules`' loop: a group with learned
entries contributes its `(group, filter, path)` triples and is reset. -/
def reportStep (acc : List (Nat × GroupInfo) × List AccessRuleReq)
    (kv : Nat × GroupInfo) :
    List (Nat × GroupInfo) × List AccessRuleReq :=
  let grp := kv.2
  if grp.learnRules ≠ [] then
    let reqs := grp.learnRules.foldl
      (fun rs fr =>
        rs ++ fr.2.map (fun prf =>
          { groupName := grp.profile.group, filter := fr.1, path := prf }))
      acc.2
    (acc.1 ++ [(kv.1, { grp with learnRules := [] })], reqs)
  else (acc.1 ++ [kv], acc.2)

/-- `FileWatch.reportLearningRules` (source, lines 348–383): collect
every learned triple and reset each nonempty `learnRules` map. -/
def reportLearningRules (w : FileWatch) : FileWatch × List AccessRuleReq :=
  let res := w.groups.foldl reportStep ([], [])
  ({ w with groups := res.1 }, res.2)

/-! ## Filter engine and watch arming -/

/-- `strings.Replace(s, "\\.", ".", -1)`. -/
def unescapeDots : List Char → List Char
  | [] => []
  | '\\' :: '.' :: t => '.' :: unescapeDots t
  | c :: t => c :: unescapeDots t

/-- A directory target together with its attached children. -/
structure DirEntry where
  dinfo : FileInfoExt
  children : List FileInfoExt
deriving DecidableEq, Repr

/-- `FileWatch.getDirFileList` (source, lines 1024–1091): pick the
walker's directories at or under the filter's unescaped base (strict
descendants only when recursive), and its files equal to the base or
under it and matching `^<dir(file)>/<regex>$` (a failed compile keeps
the file; non-recursive restricts to files directly under the base);
files whose parent directory is a picked target become its children. -/
def getDirFileList (pid : Nat) (res : WalkResult) (filter : MonitorFilter) :
    List (String × DirEntry) × List FileInfoExt :=
  let base := String.mk (unescapeDots filter.path.data)
  let baseD := base ++ "/"
  let fltKey := filterIndexKey filter
  let protect := filter.behavior = behaviorBlock
  let dirList := res.dirs.foldl
    (fun acc d =>
      if d.dir ≠ base ∧ ¬strStartsWith d.dir baseD then acc
      else if ¬filter.recursive ∧ base.length < d.dir.length then acc
      else
        let fpath := containerFilePath pid d.dir
        let dinfo : FileInfoExt :=
          { containerId := "", path := fpath, isDirMode := d.modeIsDir
            link := "", hash := 0, protect := protect
            userAdded := filter.customerAdd, filterKey := fltKey
            filterRecursive := filter.recursive }
        alInsert acc fpath ⟨dinfo, []⟩)
    ([] : List (String × DirEntry))
  res.files.foldl
    (fun acc f =>
      let keep :=
        if f.file = base then true
        else if ¬strStartsWith f.file baseD then false
        else
          let fstr := goDir f.file ++ "/" ++ filter.regex
          let rmatch :=
            match reCompile fstr with
            | some pat => reMatch pat f.file.data
            | none => true
          if !rmatch then false
          else if ¬filter.recursive ∧ goDir f.file ≠ base then false
          else true
      if keep then
        let fpath := containerFilePath pid f.file
        let file : FileInfoExt :=
          { containerId := "", path := fpath, isDirMode := f.modeIsDir
            link := "", hash := 0, protect := protect
            userAdded := filter.customerAdd, filterKey := fltKey
            filterRecursive := filter.recursive }
        match alLookup acc.1 (goDir fpath) with
        | some de =>
          (alInsert acc.1 (goDir fpath) { de with children := de.children ++ [file] },
           acc.2)
        | none => (acc.1, acc.2 ++ [file])
      else acc)
    (dirList, ([] : List FileInfoExt))

/-- `FileWatch.getDirAndFileList` (source, lines 637–647): merge one
filter's directory targets into the accumulated list (appending
children on a duplicate path) and pass its single files through. -/
def getDirAndFileList (pid : Nat) (res : WalkResult) (filter : MonitorFilter)
    (dirList : List (String × DirEntry)) :
    List (String × DirEntry) × List FileInfoExt :=
  let (dirs, singles) := getDirFileList pid res filter
  let merged := dirs.foldl
    (fun acc d =>
      match alLookup acc d.1 with
      | some de =>
        alInsert acc d.1 { de with children := de.children ++ d.2.children }
      | none => alInsert acc d.1 d.2)
    dirList
  (merged, singles)

/-- `FileWatch.getCoreFile` (source, lines 649–667): enumerate the
container via the walker (an error yields empty target sets) and fold
every normal and CRD filter through `getDirAndFileList`. -/
def getCoreFile (env : Env) (_cid : String) (pid : Nat)
    (profile : MonitorProfile) :
    List (String × DirEntry) × List FileInfoExt :=
  match env.walk pid with
  | none => ([], [])
  | some res =>
    (profile.filters ++ profile.filtersCRD).foldl
      (fun acc filter =>
        let (dirs, singles) := getDirAndFileList pid res filter acc.1
        (dirs, acc.2 ++ singles))
      (([] : List (String × DirEntry)), ([] : List FileInfoExt))

/-- One single-file step of `addCoreFile`'s first loop: a single whose
parent directory is a registered target (and that is not a
runtime-added boot file) is attached as a child with its filter
redirected to the directory's; otherwise it is armed directly. -/
def addCoreSingle (bIncINotify : Bool) (cid : String)
    (acc : FileWatch × List (String × DirEntry)) (finfo : FileInfoExt) :
    FileWatch × List (String × DirEntry) :=
  match alLookup acc.2 (goDir finfo.path) with
  | some de =>
    if !isRunTimeAddedFile finfo.path then
      let child := { finfo with
        filterKey := de.dinfo.filterKey
        filterRecursive := de.dinfo.filterRecursive }
      (acc.1,
       alInsert acc.2 (goDir finfo.path)
         { de with children := de.children ++ [child] })
    else (addFile acc.1 bIncINotify { finfo with containerId := cid }, acc.2)
  | none => (addFile acc.1 bIncINotify { finfo with containerId := cid }, acc.2)

/-- One directory step of `addCoreFile`'s second loop. -/
def addCoreDir (bIncINotify : Bool) (cid : String) (w : FileWatch)
    (d : String × DirEntry) : FileWatch :=
  let children := d.2.children.map (fun f => { f with containerId := cid })
  addDir w bIncINotify { d.2.dinfo with containerId := cid } children

/-- `FileWatch.addCoreFile` (source, lines 675–705): singles whose
parent directory is a directory target (and that are not runtime-added
boot files) are attached as children; the rest are armed as single
files; then every directory target is armed with its children. -/
def addCoreFile (w : FileWatch) (bIncINotify : Bool) (cid : String)
    (dirList : List (String × DirEntry)) (singles : List FileInfoExt) :
    FileWatch :=
  let res := singles.foldl (addCoreSingle bIncINotify cid) (w, dirList)
  res.2.foldl (addCoreDir bIncINotify cid) res.1

/-- The group create-or-refresh step of `StartWatch` (source, lines
745–758): an existing group keeps its rules and start time but takes
the new profile and mode; a fresh group starts with empty rule maps. -/
def startWatchGroups (w2 : FileWatch) (rootPid : Nat)
    (profile : MonitorProfile) (mode : String) (bNeuvectorSvc : Bool)
    (now : Nat) : FileWatch :=
  let grp :=
    match alLookup w2.groups rootPid with
    | some g => { g with profile := profile, mode := mode }
    | none =>
      { bNeuvector := bNeuvectorSvc, profile := profile, mode := mode
        applyRules := [], learnRules := [], startAt := now }
  { w2 with groups := alInsert w2.groups rootPid grp }

/-- `FileWatch.StartWatch` (source, lines 707–768): guard on the enable
flag and a live root pid; default the mode to Learn; compute the
`perm`/`access` bundle; enumerate and arm the targets; create or
refresh the group; and, except for the host and the agent's own
container, push the initial access rules when the config carries them. -/
def startWatch (env : Env) (w : FileWatch) (id : String) (rootPid : Nat)
    (conf : FsmonConfig) (capBlock bNeuvectorSvc : Bool) (now : Nat) :
    FileWatch :=
  if !w.bEnable then w
  else if !env.pidValid rootPid then w
  else
    let mode :=
      if conf.profile.mode = "" then policyModeLearn else conf.profile.mode
    let profile := { conf.profile with mode := mode }
    let perm := (mode == policyModeEnforce) && !w.aufs && capBlock
    let access :=
      if perm then false
      else if (rootPid == 1) || bNeuvectorSvc then false
      else mode == policyModeLearn
    let df := getCoreFile env id rootPid profile
    let w1 := fanSetMode w rootPid access perm capBlock bNeuvectorSvc
    let w2 := addCoreFile w1 (!bNeuvectorSvc) id df.1 df.2
    let w3 := startWatchGroups w2 rootPid profile mode bNeuvectorSvc now
    if bNeuvectorSvc ∨ rootPid = 1 then w3
    else
      match conf.rule with
      | some rule => updateAccessRules w3 profile.group rootPid rule
      | none => w3

/-! ## Classifier -/

/-- `FileWatch.handleFileEvents` (source, lines 908–950): classify one
pending single-file event against the post-event `lstat`, returning the
event id (0 = none), the possibly updated `fileMod` (its `finfo` is the
shared pointee mutated in place by the source) and the state after any
re-arming or release. -/
def handleFileEvents (env : Env) (w : FileWatch) (fmod : FileMod)
    (info : Option StatInfo) (fullPath : String) (_pid : Nat) :
    Nat × FileMod × FileWatch :=
  match info with
  | some st =>
    if fmod.mask &&& inodeMovedMask ≠ 0 then
      (fileEventMovedTo, fmod, addFile w true fmod.finfo)
    else if fmod.mask &&& IN_ATTRIB ≠ 0 then
      (fileEventAttr, { fmod with finfo.isDirMode := st.isDir }, w)
    else if fmod.mask &&& (IN_ACCESS ||| IN_CLOSE_WRITE ||| IN_MODIFY) ≠ 0 then
      match env.fileHash fullPath with
      | some hash =>
        if hash ≠ fmod.finfo.hash then
          if fmod.finfo.hash ≠ 0 then
            (fileEventModified, { fmod with finfo.hash := hash }, w)
          else
            let fmod1 := { fmod with finfo.hash := hash }
            if fmod.mask &&& (IN_CLOSE_WRITE ||| IN_MODIFY) ≠ 0 then
              (fileEventModified, fmod1, w)
            else (fileEventAccessed, fmod1, w)
        else (fileEventAccessed, fmod, w)
      | none =>
        if fmod.mask &&& (IN_CLOSE_WRITE ||| IN_MODIFY) ≠ 0 then
          (fileEventModified, fmod, w)
        else (fileEventAccessed, fmod, w)
    else (0, fmod, w)
  | none =>
    if fmod.mask &&& inodeMovedMask ≠ 0 then
      (fileEventMovedFrom, fmod, w)
    else (fileEventRemoved, fmod, removeFile w fullPath)

/-- The re-arming step inside `handleDirEvents`' create/move branch:
`osutil.GetFileInfoExtFromPath` enumerates the new target's files and
the directory is re-armed with them. -/
def rearmDir (env : Env) (w : FileWatch) (finfo : FileInfoExt) (pid : Nat)
    (fullPath : String) : FileWatch :=
  let children :=
    match env.fileInfoList pid fullPath with
    | some files => files.map (fun f => { f with containerId := finfo.containerId })
    | none => []
  addDir w true finfo children

/-- `FileWatch.handleDirEvents` (source, lines 805–905): classify one
pending directory-target event.  Existing path: moved-to / created
(with symlink targets resolved through `readlink`+`stat`, plain new
files armed directly, and non-recursive subdirectory creation cut
short) take precedence over attribute changes, which take precedence
over access/modify (hash-compared for files).  Missing path: the target
itself was removed, otherwise a child was moved away or deleted. -/
def handleDirEvents (env : Env) (w : FileWatch) (fmod : FileMod)
    (info : Option StatInfo) (fullPath _path : String) (pid : Nat) :
    Nat × FileMod × FileWatch :=
  match info with
  | some st =>
    let bIsDir := st.isDir
    if fmod.mask &&& (IN_MOVED_TO ||| IN_CREATE) ≠ 0 then
      if fmod.mask &&& IN_MOVED_TO ≠ 0 then
        let event := if bIsDir then fileEventDirMovedTo else fileEventMovedTo
        (event, fmod, rearmDir env w fmod.finfo pid fullPath)
      else if bIsDir then
        let fmod1 := { fmod with finfo.path := fullPath, finfo.isDirMode := st.isDir }
        if !fmod.finfo.filterRecursive then (fileEventDirCreate, fmod1, w)
        else (fileEventDirCreate, fmod1, rearmDir env w fmod1.finfo pid fullPath)
      else if st.isSymlink then
        let event :=
          match env.readlink fullPath with
          | some linkTo =>
            let target :=
              if strStartsWith linkTo "/" then
                joinPath ("/proc/" ++ toString pid ++ "/root") linkTo
              else joinPath (goDir fullPath) linkTo
            match env.statF target with
            | some s2 => if s2.isDir then fileEventDirSymCreate else fileEventSymCreate
            | none => fileEventSymCreate
          | none => fileEventSymCreate
        (event, fmod, rearmDir env w fmod.finfo pid fullPath)
      else
        (fileEventCreate, fmod, addFile w false fmod.finfo)
    else if fmod.mask &&& IN_ATTRIB ≠ 0 then
      ((if bIsDir then fileEventDirAttr else fileEventAttr), fmod, w)
    else if fmod.mask &&& (IN_ACCESS ||| IN_CLOSE_WRITE ||| IN_MODIFY) ≠ 0 then
      if bIsDir then (fileEventAccessed, fmod, w)
      else
        match env.fileHash fullPath with
        | some hash =>
          if hash ≠ fmod.finfo.hash then
            let event :=
              if fmod.finfo.hash ≠ 0 then fileEventModified else fileEventAccessed
            (event, { fmod with finfo.hash := hash }, w)
          else (fileEventAccessed, fmod, w)
        | none =>
          if fmod.mask &&& IN_MODIFY ≠ 0 then (fileEventModified, fmod, w)
          else (fileEventAccessed, fmod, w)
    else (0, fmod, w)
  | none =>
    if fullPath = fmod.finfo.path then (fileEventDirRemoved, fmod, w)
    else if fmod.mask &&& inodeMovedMask ≠ 0 then
      ((if fmod.mask &&& IN_ISDIR ≠ 0 then fileEventDirMovedFrom
        else fileEventMovedFrom), fmod, removeFile w fullPath)
    else (fileEventRemoved, fmod, removeFile w fullPath)

/-- One entry of `HandleWatchedFiles`' loop: parse the container path,
skip dead containers, dispatch dir/file classification on the stored
mode or the fresh `lstat`, and learn/report when an event came out. -/
def handleOneEvent (env : Env) (now : Nat)
    (acc : FileWatch × List MonitorMessage) (kv : String × FileMod) :
    FileWatch × List MonitorMessage :=
  let fullPath := kv.1
  let fmod := kv.2
  let pr := parseContainerFilePath fullPath
  if env.pidValid pr.1 then
    let info := env.lstat fullPath
    let isDirTarget :=
      fmod.finfo.isDirMode ||
        (match info with | some st => st.isDir | none => false)
    let r :=
      if isDirTarget then
        handleDirEvents env acc.1 fmod info fullPath pr.2 pr.1
      else handleFileEvents env acc.1 fmod info fullPath pr.1
    if r.1 ≠ 0 then
      let lr := learnFromEvents env r.2.2 pr.1 r.2.1 pr.2 r.1 now
      (lr.1, acc.2 ++ lr.2)
    else (r.2.2, acc.2)
  else acc

/-- `FileWatch.HandleWatchedFiles` (source, lines 770–802): swap the
pending-event map for an empty one and run every cloned entry through
the classifier, collecting the emitted messages. -/
def handleWatchedFiles (env : Env) (w : FileWatch) (now : Nat) :
    FileWatch × List MonitorMessage :=
  let events := w.fileEvents
  let w0 := { w with fileEvents := [] }
  events.foldl (handleOneEvent env now) (w0, [])

/-! ## Probes and getters -/

/-- `FmonProbeData` (flattened over the two driver sub-records). -/
structure FmonProbeData where
  nFileEvents : Nat
  nGroups : Nat
  fanPathCount : Nat
  fanDirCount : Nat
  inoPathCount : Nat
  inoDirCount : Nat
deriving DecidableEq, Repr

/-- `FileWatch.GetWatchFileList` (source, lines 978–983); the fanotify
side is modelled from the spec as the armed paths under the container
root. -/
def getWatchFileList (w : FileWatch) (rootPid : Nat) :
    Option (List String) :=
  if !w.bEnable then none
  else
    some ((w.fanPaths ++ w.fanDirs).filter
      (fun p => strStartsWith p (containerFilePath rootPid "")))

/-- `FileWatch.GetAllFileMonitorFile` (source, lines 985–990); the
driver's `GetWatches` is modelled from the spec as all armed paths. -/
def getAllFileMonitorFile (w : FileWatch) : Option (List String) :=
  if !w.bEnable then none else some (w.fanPaths ++ w.fanDirs)

/-- `FileWatch.GetProbeData` (source, lines 993–1013). -/
def getProbeData (w : FileWatch) : Option FmonProbeData :=
  if !w.bEnable then none
  else
    some
      { nFileEvents := w.fileEvents.length
        nGroups := w.groups.length
        fanPathCount := w.fanPaths.length
        fanDirCount := w.fanDirs.length
        inoPathCount := w.inoPaths.length
        inoDirCount := w.inoDirs.length }

/-! ## Association-list laws -/

theorem alLookup_insert_self {κ α : Type} [DecidableEq κ]
    (m : List (κ × α)) (k : κ) (v : α) :
    alLookup (alInsert m k v) k = some v := by
  induction m with
  | nil => simp [alInsert, alLookup]
  | cons h t ih =>
    obtain ⟨k', v'⟩ := h
    by_cases hk : k' = k <;> simp [alInsert, alLookup, hk, ih]

theorem alLookup_insert_ne {κ α : Type} [DecidableEq κ]
    (m : List (κ × α)) (k k' : κ) (v : α) (h : k ≠ k') :
    alLookup (alInsert m k v) k' = alLookup m k' := by
  induction m with
  | nil => simp [alInsert, alLookup, h]
  | cons hd t ih =>
    obtain ⟨k₀, v₀⟩ := hd
    by_cases hk : k₀ = k
    · subst hk; simp [alInsert, alLookup, h]
    · simp [alInsert, alLookup, hk, ih]

theorem alLookup_erase_self {κ α : Type} [DecidableEq κ]
    (m : List (κ × α)) (k : κ) :
    alLookup (alErase m k) k = none := by
  induction m with
  | nil => simp [alErase, alLookup]
  | cons hd t ih =>
    obtain ⟨k₀, v₀⟩ := hd
    by_cases hk : k₀ = k <;> simp [alErase, alLookup, hk, ih]

theorem alLookup_erase_ne {κ α : Type} [DecidableEq κ]
    (m : List (κ × α)) (k k' : κ) (h : k ≠ k') :
    alLookup (alErase m k) k' = alLookup m k' := by
  induction m with
  | nil => simp [alErase, alLookup]
  | cons hd t ih =>
    obtain ⟨k₀, v₀⟩ := hd
    by_cases hk : k₀ = k
    · subst hk; simp [alErase, alLookup, h, ih]
    · simp [alErase, alLookup, hk, ih]

theorem startWatchGroups_lookup (w2 : FileWatch) (rootPid : Nat)
    (profile : MonitorProfile) (mode : String) (bNV : Bool) (now : Nat) :
    ∃ g, alLookup (startWatchGroups w2 rootPid profile mode bNV
        now).groups rootPid = some g ∧
      g.mode = mode ∧ g.profile = profile := by
  unfold startWatchGroups
  refine ⟨_, alLookup_insert_self .., ?_, ?_⟩ <;> (split <;> rfl)

theorem startWatchGroups_fanModes (w2 : FileWatch) (rootPid : Nat)
    (profile : MonitorProfile) (mode : String) (bNV : Bool) (now : Nat) :
    (startWatchGroups w2 rootPid profile mode bNV now).fanModes =
      w2.fanModes := rfl

/-! ## Frame lemmas: which state components each operation leaves alone -/

theorem addFile_groups (w : FileWatch) (b : Bool) (f : FileInfoExt) :
    (addFile w b f).groups = w.groups := by
  unfold addFile; split <;> [rfl; split <;> rfl]

theorem addFile_fileEvents (w : FileWatch) (b : Bool) (f : FileInfoExt) :
    (addFile w b f).fileEvents = w.fileEvents := by
  unfold addFile; split <;> [rfl; split <;> rfl]

theorem addFile_fanModes (w : FileWatch) (b : Bool) (f : FileInfoExt) :
    (addFile w b f).fanModes = w.fanModes := by
  unfold addFile; split <;> [rfl; split <;> rfl]

theorem addDir_groups (w : FileWatch) (b : Bool) (f : FileInfoExt)
    (cs : List FileInfoExt) : (addDir w b f cs).groups = w.groups := by
  unfold addDir; split <;> [rfl; split <;> rfl]

theorem addDir_fileEvents (w : FileWatch) (b : Bool) (f : FileInfoExt)
    (cs : List FileInfoExt) : (addDir w b f cs).fileEvents = w.fileEvents := by
  unfold addDir; split <;> [rfl; split <;> rfl]

theorem addDir_fanModes (w : FileWatch) (b : Bool) (f : FileInfoExt)
    (cs : List FileInfoExt) : (addDir w b f cs).fanModes = w.fanModes := by
  unfold addDir; split <;> [rfl; split <;> rfl]

theorem removeFile_groups (w : FileWatch) (p : String) :
    (removeFile w p).groups = w.groups := rfl

theorem removeFile_fileEvents (w : FileWatch) (p : String) :
    (removeFile w p).fileEvents = w.fileEvents := rfl

theorem rearmDir_groups (env : Env) (w : FileWatch) (f : FileInfoExt)
    (pid : Nat) (p : String) : (rearmDir env w f pid p).groups = w.groups := by
  unfold rearmDir; exact addDir_groups ..

theorem rearmDir_fileEvents (env : Env) (w : FileWatch) (f : FileInfoExt)
    (pid : Nat) (p : String) :
    (rearmDir env w f pid p).fileEvents = w.fileEvents := by
  unfold rearmDir; exact addDir_fileEvents ..

/-- A fold whose step preserves a projection preserves it overall. -/
theorem foldl_preserves {α β γ : Type} (proj : α → γ) (f : α → β → α)
    (h : ∀ a b, proj (f a b) = proj a) :
    ∀ (l : List β) (a : α), proj (l.foldl f a) = proj a := by
  intro l
  induction l with
  | nil => intro a; rfl
  | cons x t ih => intro a; rw [List.foldl_cons, ih, h]

theorem addCoreSingle_groups (b : Bool) (cid : String)
    (acc : FileWatch × List (String × DirEntry)) (f : FileInfoExt) :
    (addCoreSingle b cid acc f).1.groups = acc.1.groups := by
  unfold addCoreSingle
  repeat' split
  all_goals simp [addFile_groups]

theorem addCoreSingle_fileEvents (b : Bool) (cid : String)
    (acc : FileWatch × List (String × DirEntry)) (f : FileInfoExt) :
    (addCoreSingle b cid acc f).1.fileEvents = acc.1.fileEvents := by
  unfold addCoreSingle
  repeat' split
  all_goals simp [addFile_fileEvents]

theorem addCoreSingle_fanModes (b : Bool) (cid : String)
    (acc : FileWatch × List (String × DirEntry)) (f : FileInfoExt) :
    (addCoreSingle b cid acc f).1.fanModes = acc.1.fanModes := by
  unfold addCoreSingle
  repeat' split
  all_goals simp [addFile_fanModes]

theorem addCoreDir_groups (b : Bool) (cid : String) (w : FileWatch)
    (d : String × DirEntry) : (addCoreDir b cid w d).groups = w.groups := by
  unfold addCoreDir; exact addDir_groups ..

theorem addCoreDir_fileEvents (b : Bool) (cid : String) (w : FileWatch)
    (d : String × DirEntry) :
    (addCoreDir b cid w d).fileEvents = w.fileEvents := by
  unfold addCoreDir; exact addDir_fileEvents ..

theorem addCoreDir_fanModes (b : Bool) (cid : String) (w : FileWatch)
    (d : String × DirEntry) : (addCoreDir b cid w d).fanModes = w.fanModes := by
  unfold addCoreDir; exact addDir_fanModes ..

theorem addCoreFile_groups (w : FileWatch) (b : Bool) (cid : String)
    (dirs : List (String × DirEntry)) (singles : List FileInfoExt) :
    (addCoreFile w b cid dirs singles).groups = w.groups := by
  unfold addCoreFile
  rw [foldl_preserves (fun w => w.groups) (addCoreDir b cid)
      (fun a d => addCoreDir_groups ..)]
  exact foldl_preserves (fun acc => acc.1.groups) (addCoreSingle b cid)
    (fun a f => addCoreSingle_groups ..) singles (w, dirs)

theorem addCoreFile_fileEvents (w : FileWatch) (b : Bool) (cid : String)
    (dirs : List (String × DirEntry)) (singles : List FileInfoExt) :
    (addCoreFile w b cid dirs singles).fileEvents = w.fileEvents := by
  unfold addCoreFile
  rw [foldl_preserves (fun w => w.fileEvents) (addCoreDir b cid)
      (fun a d => addCoreDir_fileEvents ..)]
  exact foldl_preserves (fun acc => acc.1.fileEvents) (addCoreSingle b cid)
    (fun a f => addCoreSingle_fileEvents ..) singles (w, dirs)

theorem addCoreFile_fanModes (w : FileWatch) (b : Bool) (cid : String)
    (dirs : List (String × DirEntry)) (singles : List FileInfoExt) :
    (addCoreFile w b cid dirs singles).fanModes = w.fanModes := by
  unfold addCoreFile
  rw [foldl_preserves (fun w => w.fanModes) (addCoreDir b cid)
      (fun a d => addCoreDir_fanModes ..)]
  exact foldl_preserves (fun acc => acc.1.fanModes) (addCoreSingle b cid)
    (fun a f => addCoreSingle_fanModes ..) singles (w, dirs)

theorem handleFileEvents_groups (env : Env) (w : FileWatch) (fmod : FileMod)
    (info : Option StatInfo) (p : String) (pid : Nat) :
    (handleFileEvents env w fmod info p pid).2.2.groups = w.groups := by
  unfold handleFileEvents
  repeat' split
  all_goals simp [addFile_groups, removeFile_groups]

theorem handleFileEvents_fileEvents (env : Env) (w : FileWatch)
    (fmod : FileMod) (info : Option StatInfo) (p : String) (pid : Nat) :
    (handleFileEvents env w fmod info p pid).2.2.fileEvents = w.fileEvents := by
  unfold handleFileEvents
  repeat' split
  all_goals simp [addFile_fileEvents, removeFile_fileEvents]

theorem handleDirEvents_groups (env : Env) (w : FileWatch) (fmod : FileMod)
    (info : Option StatInfo) (p q : String) (pid : Nat) :
    (handleDirEvents env w fmod info p q pid).2.2.groups = w.groups := by
  unfold handleDirEvents
  repeat' split
  all_goals try simp [addFile_groups, removeFile_groups, rearmDir_groups]
  all_goals try split
  all_goals simp [addFile_groups, removeFile_groups, rearmDir_groups]

theorem handleDirEvents_fileEvents (env : Env) (w : FileWatch)
    (fmod : FileMod) (info : Option StatInfo) (p q : String) (pid : Nat) :
    (handleDirEvents env w fmod info p q pid).2.2.fileEvents = w.fileEvents := by
  unfold handleDirEvents
  repeat' split
  all_goals try simp [addFile_fileEvents, removeFile_fileEvents, rearmDir_fileEvents]
  all_goals try split
  all_goals simp [addFile_fileEvents, removeFile_fileEvents, rearmDir_fileEvents]

theorem updateAccessRules_fanModes (w : FileWatch) (n : String) (p : Nat)
    (c : AccessRule) : (updateAccessRules w n p c).fanModes = w.fanModes := by
  unfold updateAccessRules
  repeat' split
  all_goals rfl

theorem updateAccessRules_fileEvents (w : FileWatch) (n : String) (p : Nat)
    (c : AccessRule) : (updateAccessRules w n p c).fileEvents = w.fileEvents := by
  unfold updateAccessRules
  repeat' split
  all_goals rfl

/-- `UpdateAccessRules` keeps every group field except `applyRules`. -/
theorem updateAccessRules_keeps (w : FileWatch) (n : String) (p : Nat)
    (c : AccessRule) (g : GroupInfo) (h : alLookup w.groups p = some g) :
    ∃ g', alLookup (updateAccessRules w n p c).groups p = some g' ∧
      g'.mode = g.mode ∧ g'.profile = g.profile ∧
      g'.learnRules = g.learnRules ∧ g'.startAt = g.startAt ∧
      g'.bNeuvector = g.bNeuvector := by
  unfold updateAccessRules
  by_cases he : w.bEnable
  · simp only [he, Bool.not_true, Bool.false_eq_true, if_false, h]
    exact ⟨_, alLookup_insert_self .., rfl, rfl, rfl, rfl, rfl⟩
  · have : w.bEnable = false := by simpa using he
    simp only [this]
    exact ⟨g, by simpa using h, rfl, rfl, rfl, rfl, rfl⟩

/-- `UpdateAccessRules` leaves other groups alone. -/
theorem updateAccessRules_other (w : FileWatch) (n : String) (p q : Nat)
    (c : AccessRule) (h : p ≠ q) :
    alLookup (updateAccessRules w n p c).groups q = alLookup w.groups q := by
  unfold updateAccessRules
  repeat' split
  all_goals simp [alLookup_insert_ne _ _ _ _ h]

/-! ## Concrete material for witnesses and counterexamples -/

/-- A concrete environment: pid 42 is the only live container, the
filesystem probes all miss, and the group estimator names `g0`. -/
def envC : Env :=
  { pidValid := fun p => decide (p = 42)
    lstat := fun _ => none
    statF := fun _ => none
    readlink := fun _ => none
    fileHash := fun _ => none
    fileInfoList := fun _ _ => none
    walk := fun _ => none
    isPackageLib := fun _ => false
    estRuleSrc := fun _ _ _ => "g0" }

/-- An enabled watcher with no state. -/
def wEmpty : FileWatch :=
  { bEnable := true, aufs := false, bNVProtect := false
    fileEvents := [], groups := []
    fanPaths := [], fanDirs := [], inoPaths := [], inoDirs := []
    fanModes := [], fanRules := [] }

/-- A disabled watcher carrying nonempty state (to make the no-op
conclusions observable). -/
def wOff : FileWatch :=
  { wEmpty with bEnable := false, fanPaths := ["/proc/42/root/etc/passwd"] }

/-- The one customer-added filter `/etc/passwd` (exact match). -/
def fltPasswd : MonitorFilter :=
  { behavior := "monitor", path := "/etc/passwd", regex := ""
    recursive := false, customerAdd := true, derivedGroup := "" }

/-- A profile holding just `fltPasswd`, group name `g0`, empty mode. -/
def profC : MonitorProfile :=
  { group := "g0", mode := "", filters := [fltPasswd], filtersCRD := [] }

/-! ## C10 — a disabled watcher is inert -/

/-- C10: with `ProfileEnable=false`, `StartWatch`, `UpdateAccessRules`
and `ContainerCleanup` return the state unchanged, and
`GetWatchFileList`, `GetAllFileMonitorFile` and `GetProbeData` all
return `nil`. -/
theorem c10_disabled_inert (env : Env) (w : FileWatch)
    (h : w.bEnable = false) :
    (∀ id rootPid conf capBlock bNV now,
        startWatch env w id rootPid conf capBlock bNV now = w) ∧
    (∀ name rootPid conf, updateAccessRules w name rootPid conf = w) ∧
    (∀ rootPid bLeave, containerCleanup w rootPid bLeave = w) ∧
    (∀ rootPid, getWatchFileList w rootPid = none) ∧
    getAllFileMonitorFile w = none ∧
    getProbeData w = none := by
  refine ⟨?_, ?_, ?_, ?_, ?_, ?_⟩ <;>
    intros <;>
    simp [startWatch, updateAccessRules, containerCleanup, getWatchFileList,
      getAllFileMonitorFile, getProbeData, h]

/-- C10 witness: the disabled watcher `wOff` at concrete arguments. -/
theorem c10_disabled_inert_witness :
    wOff.bEnable = false ∧
    (startWatch envC wOff "c1" 42 ⟨profC, none⟩ true false 5 = wOff ∧
      updateAccessRules wOff "g0" 42 ⟨[]⟩ = wOff ∧
      containerCleanup wOff 42 true = wOff ∧
      getWatchFileList wOff 42 = none ∧
      getAllFileMonitorFile wOff = none ∧
      getProbeData wOff = none) :=
  ⟨rfl,
    (c10_disabled_inert envC wOff rfl).1 "c1" 42 ⟨profC, none⟩ true false 5,
    (c10_disabled_inert envC wOff rfl).2.1 "g0" 42 ⟨[]⟩,
    (c10_disabled_inert envC wOff rfl).2.2.1 42 true,
    (c10_disabled_inert envC wOff rfl).2.2.2.1 42,
    (c10_disabled_inert envC wOff rfl).2.2.2.2.1,
    (c10_disabled_inert envC wOff rfl).2.2.2.2.2⟩

/-! ## C4 — `StartWatch` mode defaulting and the `perm`/`access` bundle -/

/-- C4: on an enabled watcher with a valid root pid, `StartWatch`
stores a group whose mode is the profile's mode defaulted to Learn when
empty; the fanotify mode entry has `perm` true exactly when the
(defaulted) mode is Enforce, the filesystem is not AUFS and `capBlock`
holds; and its `access` flag can be true only when the root pid is not
1, the container is not the agent's own, and the mode is Learn. -/
theorem c4_start_watch_flags (env : Env) (w : FileWatch) (id : String)
    (rootPid : Nat) (conf : FsmonConfig) (capBlock bNeuvectorSvc : Bool)
    (now : Nat) (hEn : w.bEnable = true)
    (hPid : env.pidValid rootPid = true) :
    (∃ g, alLookup (startWatch env w id rootPid conf capBlock bNeuvectorSvc
        now).groups rootPid = some g ∧
      g.mode = (if conf.profile.mode = "" then policyModeLearn
        else conf.profile.mode)) ∧
    (∃ e, alLookup (startWatch env w id rootPid conf capBlock bNeuvectorSvc
        now).fanModes rootPid = some e ∧
      e.perm = (((if conf.profile.mode = "" then policyModeLearn
          else conf.profile.mode) == policyModeEnforce) && !w.aufs &&
          capBlock) ∧
      (e.access = true →
        rootPid ≠ 1 ∧ bNeuvectorSvc = false ∧
        (if conf.profile.mode = "" then policyModeLearn
          else conf.profile.mode) = policyModeLearn)) := by
  unfold startWatch
  simp only [hEn, hPid, Bool.not_true, Bool.false_eq_true, if_false]
  set mode := (if conf.profile.mode = "" then policyModeLearn
    else conf.profile.mode) with hmode
  set perm := ((mode == policyModeEnforce) && !w.aufs && capBlock)
    with hperm
  set access := (if perm then false
    else if (rootPid == 1) || bNeuvectorSvc then false
    else mode == policyModeLearn) with haccess
  set profile := { conf.profile with mode := mode } with hprofile
  set w1 := fanSetMode w rootPid access perm capBlock bNeuvectorSvc with hw1
  set df := getCoreFile env id rootPid profile with hdf
  set w2 := addCoreFile w1 (!bNeuvectorSvc) id df.1 df.2 with hw2
  set w3 := startWatchGroups w2 rootPid profile mode bNeuvectorSvc now
    with hw3
  have hacc : access = true →
      rootPid ≠ 1 ∧ bNeuvectorSvc = false ∧ mode = policyModeLearn := by
    intro ha
    rw [haccess] at ha
    split at ha
    · simp at ha
    · split at ha
      · simp at ha
      · next h1 =>
        simp only [Bool.or_eq_true, beq_iff_eq, not_or,
          Bool.not_eq_true] at h1
        exact ⟨h1.1, h1.2, by simpa using ha⟩
  have hfan : w3.fanModes =
      alInsert w.fanModes rootPid ⟨access, perm, capBlock, bNeuvectorSvc⟩ := by
    rw [hw3, startWatchGroups_fanModes, hw2, addCoreFile_fanModes, hw1]
    rfl
  obtain ⟨g0, hg0, hm0, _⟩ :=
    startWatchGroups_lookup w2 rootPid profile mode bNeuvectorSvc now
  have hg0w : alLookup w3.groups rootPid = some g0 := by rw [hw3]; exact hg0
  by_cases hnv : bNeuvectorSvc ∨ rootPid = 1
  · simp only [hnv, if_true]
    refine ⟨⟨g0, hg0w, hm0⟩, ⟨access, perm, capBlock, bNeuvectorSvc⟩,
      ?_, rfl, hacc⟩
    rw [hfan]
    exact alLookup_insert_self ..
  · simp only [hnv, if_false]
    rcases hr : conf.rule with _ | rule
    · refine ⟨⟨g0, hg0w, hm0⟩, ⟨access, perm, capBlock, bNeuvectorSvc⟩,
        ?_, rfl, hacc⟩
      rw [hfan]
      exact alLookup_insert_self ..
    · obtain ⟨g1, hg1, hm1, _⟩ :=
        updateAccessRules_keeps w3 profile.group rootPid rule g0 hg0w
      refine ⟨⟨g1, hg1, by rw [hm1, hm0]⟩,
        ⟨access, perm, capBlock, bNeuvectorSvc⟩, ?_, rfl, hacc⟩
      rw [updateAccessRules_fanModes, hfan]
      exact alLookup_insert_self ..

/-- C4 witness: an empty-mode Evaluate-free profile on pid 42 defaults
to Learn; `perm` comes out false and `access` true is consistent with
the only-when conditions. -/
theorem c4_start_watch_flags_witness :
    wEmpty.bEnable = true ∧ envC.pidValid 42 = true ∧
    ((∃ g, alLookup (startWatch envC wEmpty "c1" 42 ⟨profC, none⟩ true false
        5).groups 42 = some g ∧
      g.mode = (if profC.mode = "" then policyModeLearn else profC.mode)) ∧
    (∃ e, alLookup (startWatch envC wEmpty "c1" 42 ⟨profC, none⟩ true false
        5).fanModes 42 = some e ∧
      e.perm = (((if profC.mode = "" then policyModeLearn else profC.mode) ==
          policyModeEnforce) && !wEmpty.aufs && true) ∧
      (e.access = true →
        (42 : Nat) ≠ 1 ∧ false = false ∧
        (if profC.mode = "" then policyModeLearn else profC.mode) =
          policyModeLearn))) :=
  ⟨rfl, by decide,
    c4_start_watch_flags envC wEmpty "c1" 42 ⟨profC, none⟩ true false 5 rfl
      (by decide)⟩

/-! ## C5 — boot-file grace period -/

/-- C5: for the runtime-written boot files, `learnFromEvents` emits no
message when the classified event is `FileAccessed` or when less than
60 seconds separate the group's start from the handling time. -/
theorem c5_runtime_file_suppressed (env : Env) (w : FileWatch)
    (rootPid : Nat) (fmod : FileMod) (path : String) (event now : Nat)
    (hp : path = "/etc/hosts" ∨ path = "/etc/hostname" ∨
      path = "/etc/resolv.conf")
    (hc : event = fileEventAccessed ∨
      ∀ g, alLookup w.groups rootPid = some g → now - g.startAt < 60) :
    (learnFromEvents env w rootPid fmod path event now).2 = [] := by
  unfold learnFromEvents
  rcases hl : alLookup w.groups rootPid with _ | grp
  · rfl
  · have hrt : isRunTimeAddedFile (joinPath "/root" path) = true := by
      rcases hp with h | h | h <;> subst h <;> decide
    rcases hc with he | h60
    · subst he; simp [hl, hrt]
    · have h60' : now - grp.startAt < 60 := h60 grp hl
      simp [hl, hrt, h60']

/-- A group in Evaluate mode for container 42 started at time 0. -/
def grpEval : GroupInfo :=
  { bNeuvector := false, profile := { profC with mode := policyModeEvaluate }
    mode := policyModeEvaluate, applyRules := [], learnRules := []
    startAt := 0 }

/-- The enabled watcher holding `grpEval` for pid 42. -/
def wGrp : FileWatch := { wEmpty with groups := [(42, grpEval)] }

/-- The armed `/etc/hosts` target of container 42. -/
def finfoHosts : FileInfoExt :=
  { containerId := "c1", path := "/proc/42/root/etc/hosts"
    isDirMode := false, link := "", hash := 0, protect := false
    userAdded := true, filterKey := "/etc/hosts/", filterRecursive := false }

/-- A pending modify event on `/etc/hosts` with no process info. -/
def fmodHosts : FileMod :=
  { mask := IN_MODIFY, delay := 0, finfo := finfoHosts, pInfo := [] }

/-- C5 witness: a modify event on `/etc/hosts` ten seconds after the
group started produces no message. -/
theorem c5_runtime_file_suppressed_witness :
    ("/etc/hosts" = "/etc/hosts" ∨ "/etc/hosts" = "/etc/hostname" ∨
      "/etc/hosts" = "/etc/resolv.conf") ∧
    (learnFromEvents envC wGrp 42 fmodHosts "/etc/hosts" fileEventModified
      10).2 = [] :=
  ⟨Or.inl rfl,
    c5_runtime_file_suppressed envC wGrp 42 fmodHosts "/etc/hosts"
      fileEventModified 10 (Or.inl rfl)
      (Or.inr (fun g hg => by
        have hge : some grpEval = some g := by rw [← hg]; rfl
        rw [← Option.some.inj hge]; decide))⟩

/-! ## C9 — symlink targets are reported with the host prefix stripped -/

theorem mkProcMsg_path (env : Env) (cid p em : String) (ev : Nat)
    (pi : ProcInfo) : (mkProcMsg env cid p em ev pi).path = p := by
  unfold mkProcMsg mkPlainMsg
  split <;> rfl

theorem sendMsgLoop_path (env : Env) (cid p em : String) (ev : Nat) :
    ∀ (l : List ProcInfo) (prev : ProcInfo) (m : MonitorMessage),
      m ∈ sendMsgLoop env cid p em ev prev l → m.path = p := by
  intro l
  induction l with
  | nil => intro prev m hm; cases hm
  | cons pi rest ih =>
    intro prev m hm
    unfold sendMsgLoop at hm
    rcases List.mem_append.1 hm with h1 | h2
    · split at h1
      · cases h1
      · rcases h1 with _ | ⟨_, h⟩
        · exact mkProcMsg_path ..
        · cases h
    · exact ih pi m h2

/-- Every message `sendMsg` emits carries the path it was given. -/
theorem sendMsg_path (env : Env) (cid p : String) (ev : Nat)
    (pl : List ProcInfo) (mode : String) (m : MonitorMessage)
    (hm : m ∈ sendMsg env cid p ev pl mode) : m.path = p := by
  unfold sendMsg at hm
  split at hm
  · cases hm
  · split at hm
    · rcases hm with _ | ⟨_, h⟩
      · rfl
      · cases h
    · rcases hm with _ | ⟨_, h⟩
      · exact mkProcMsg_path ..
      · exact sendMsgLoop_path env cid p _ ev _ _ m h

/-- C9: when the classified event's `FileInfoExt` carries a nonempty
resolved link, every emitted message reports the link target with
`stripLinkRoot` applied; in particular, when `/root/` occurs in the
link at a positive index `i`, the reported path is the link's suffix
from index `i + 5` — the `/` immediately after that `/root`. -/
theorem c9_link_reported (env : Env) (w : FileWatch) (rootPid : Nat)
    (fmod : FileMod) (path : String) (event now : Nat)
    (hl : fmod.finfo.link ≠ "") :
    ∀ m ∈ (learnFromEvents env w rootPid fmod path event now).2,
      m.path = stripLinkRoot fmod.finfo.link ∧
      (∀ i, strIndex fmod.finfo.link "/root/" = some i → 0 < i →
        m.path = strDrop fmod.finfo.link (i + 5)) := by
  intro m hm
  unfold learnFromEvents at hm
  rcases hg : alLookup w.groups rootPid with _ | grp
  · simp only [hg] at hm
    cases hm
  · simp only [hg] at hm
    split at hm
    · simp at hm
    · split at hm
      · have hp := sendMsg_path _ _ _ _ _ _ m (by simpa using hm)
        refine ⟨hp, fun i hi h0 => ?_⟩
        rw [hp]
        unfold stripLinkRoot
        rw [hi]
        simp [h0]
      · simp at hm

/-- A pending event whose target resolved to the symlink
`/proc/42/root/etc/passwd`. -/
def fmodLink : FileMod :=
  { mask := IN_MODIFY, delay := 0
    finfo := { finfoHosts with link := "/proc/42/root/etc/passwd" }
    pInfo := [] }

/-- C9 witness: the one message emitted for `fmodLink` reports
`/etc/passwd`, the link suffix after the positive occurrence of
`/root` at index 8. -/
theorem c9_link_reported_witness :
    fmodLink.finfo.link ≠ "" ∧
    (∀ m ∈ (learnFromEvents envC wGrp 42 fmodLink "/etc/shadow"
        fileEventModified 100).2,
      m.path = stripLinkRoot fmodLink.finfo.link ∧
      (∀ i, strIndex fmodLink.finfo.link "/root/" = some i → 0 < i →
        m.path = strDrop fmodLink.finfo.link (i + 5))) ∧
    (learnFromEvents envC wGrp 42 fmodLink "/etc/shadow" fileEventModified
        100).2.map (fun m => m.path) = ["/etc/passwd"] :=
  ⟨by decide,
    c9_link_reported envC wGrp 42 fmodLink "/etc/shadow" fileEventModified
      100 (by decide),
    by decide⟩

/-! ## C3 — what `filterPathMatch` actually matches against -/

/-- The `/bin` recursive wildcard filter of the source's
`ImportantFiles` table. -/
def fltBinAll : MonitorFilter :=
  { behavior := "monitor", path := "/bin", regex := ".*"
    recursive := true, customerAdd := true, derivedGroup := "" }

/-- C3 counterexample: for the stock filter `{path:"/bin", regex:".*"}`
and candidate `/bin/ls`, the source's `filterPathMatch` accepts, but
the claim's anchored regex `^<dir(f.path)>/<f.regex>$` is `^//.*$`
(since `dir("/bin") = "/"`), which rejects `/bin/ls`. -/
theorem c3_match_counterexample :
    filterPathMatch "/bin/ls" fltBinAll = true ∧
    filterPathMatchSpec "/bin/ls" fltBinAll = false ∧
    goDir fltBinAll.path = "/" ∧
    reMatch ("/" ++ "/" ++ fltBinAll.regex).data "/bin/ls".data = false := by
  refine ⟨by decide, by decide, by decide, by decide⟩

/-- C3 amended: `filterPathMatch p f` returns true iff, for an empty
regex, `p` equals `f.path`, and otherwise `p` matches the anchored
regex built from the directory of the *candidate* `p` —
`^<dir(p)>/<f.regex>$` — a failed compile matching nothing. -/
theorem c3_match_amended (p : String) (flt : MonitorFilter) :
    filterPathMatch p flt = true ↔
      (if flt.regex = "" then p = flt.path
       else ∃ pat, reCompile (goDir p ++ "/" ++ flt.regex) = some pat ∧
         reMatch pat p.data = true) := by
  unfold filterPathMatch
  split
  · simp [eq_comm]
  · dsimp only
    split
    · next pat heq =>
      constructor
      · intro h; exact ⟨pat, heq, h⟩
      · rintro ⟨pat', heq', h'⟩
        rw [heq] at heq'
        cases Option.some.inj heq'
        exact h'
    · next heq =>
      constructor
      · intro h; cases h
      · rintro ⟨pat', heq', _⟩
        rw [heq] at heq'
        cases heq'

/-! ## C8 — ignored/unmount events release the watch and are dropped -/

theorem tableRemove_not_mem (t : List String) (p : String) :
    p ∉ tableRemove t p := by
  intro h
  rw [tableRemove, List.mem_filter] at h
  simp at h

/-- C8 counterexample: an `IN_IGNORED` event on an empty pending map
leaves the map empty — the event is *not* recorded for the aggregator,
so no removal can be classified from it at the next flush. -/
theorem c8_ignored_counterexample :
    (cbNotify wGrp "/proc/42/root/etc/hosts" IN_IGNORED finfoHosts
        none).fileEvents = [] ∧
    IN_IGNORED &&& IN_IGNORED ≠ 0 := by
  refine ⟨by decide, by decide⟩

/-- C8 amended: on a mask carrying `IN_IGNORED` or `IN_UNMOUNT`,
`cbNotify` releases both drivers' registrations for the path and then
simply drops the event: the pending file-event map is left exactly as
it was. -/
theorem c8_ignored_releases (w : FileWatch) (fp : String) (mask : Nat)
    (finfo : FileInfoExt) (pInfo : Option ProcInfo)
    (h : mask &&& IN_IGNORED ≠ 0 ∨ mask &&& IN_UNMOUNT ≠ 0) :
    cbNotify w fp mask finfo pInfo = removeFile w fp ∧
    (cbNotify w fp mask finfo pInfo).fileEvents = w.fileEvents ∧
    fp ∉ (cbNotify w fp mask finfo pInfo).fanPaths ∧
    fp ∉ (cbNotify w fp mask finfo pInfo).inoPaths := by
  have hc : cbNotify w fp mask finfo pInfo = removeFile w fp := by
    unfold cbNotify
    rw [if_pos h]
  refine ⟨hc, by rw [hc]; rfl, ?_, ?_⟩
  · rw [hc]
    exact tableRemove_not_mem w.fanPaths fp
  · rw [hc]
    exact tableRemove_not_mem w.inoPaths fp

/-- A watcher with an armed `/etc/hosts` target and one pending event. -/
def wArmed : FileWatch :=
  { wGrp with
    fanPaths := ["/proc/42/root/etc/hosts"]
    inoPaths := ["/proc/42/root/etc/hosts"]
    fileEvents := [("/proc/42/root/etc/passwd", fmodHosts)] }

/-- C8 witness: an unmount event on the armed path releases it from
both driver tables and leaves the one pending event untouched. -/
theorem c8_ignored_releases_witness :
    (IN_UNMOUNT &&& IN_IGNORED ≠ 0 ∨ IN_UNMOUNT &&& IN_UNMOUNT ≠ 0) ∧
    (cbNotify wArmed "/proc/42/root/etc/hosts" IN_UNMOUNT finfoHosts none =
        removeFile wArmed "/proc/42/root/etc/hosts" ∧
      (cbNotify wArmed "/proc/42/root/etc/hosts" IN_UNMOUNT finfoHosts
          none).fileEvents = wArmed.fileEvents ∧
      "/proc/42/root/etc/hosts" ∉
        (cbNotify wArmed "/proc/42/root/etc/hosts" IN_UNMOUNT finfoHosts
          none).fanPaths ∧
      "/proc/42/root/etc/hosts" ∉
        (cbNotify wArmed "/proc/42/root/etc/hosts" IN_UNMOUNT finfoHosts
          none).inoPaths) :=
  ⟨Or.inr (by decide),
    c8_ignored_releases wArmed "/proc/42/root/etc/hosts" IN_UNMOUNT
      finfoHosts none (Or.inr (by decide))⟩

/-! ## C6 — container cleanup -/

theorem alLookup_mem {κ α : Type} [DecidableEq κ] (l : List (κ × α))
    (k : κ) (v : α) (h : alLookup l k = some v) : (k, v) ∈ l := by
  induction l with
  | nil => cases h
  | cons hd t ih =>
    obtain ⟨k', v'⟩ := hd
    unfold alLookup at h
    by_cases hk : k' = k
    · subst hk
      rw [if_pos rfl] at h
      cases Option.some.inj h
      exact List.mem_cons_self ..
    · rw [if_neg hk] at h
      exact List.mem_cons_of_mem _ (ih h)

/-- Enabled cleanup filters the pending map down to other containers,
for either value of `bLeave`. -/
theorem containerCleanup_fileEvents (w : FileWatch) (pid : Nat)
    (bLeave : Bool) (hEn : w.bEnable = true) :
    (containerCleanup w pid bLeave).fileEvents =
      w.fileEvents.filter
        (fun kv => (parseContainerFilePath kv.1).1 ≠ pid) := by
  unfold containerCleanup
  simp only [hEn, Bool.not_true, Bool.false_eq_true, if_false]
  repeat' split
  all_goals rfl

theorem containerCleanup_groups_leave (w : FileWatch) (pid : Nat)
    (hEn : w.bEnable = true) :
    alLookup (containerCleanup w pid true).groups pid = none := by
  unfold containerCleanup
  simp only [hEn, Bool.not_true, Bool.false_eq_true, if_false]
  split
  · next heq => exact heq
  · exact alLookup_erase_self ..

theorem containerCleanup_groups_keep (w : FileWatch) (pid : Nat)
    (g : GroupInfo) (hEn : w.bEnable = true)
    (hg : alLookup w.groups pid = some g) :
    alLookup (containerCleanup w pid false).groups pid =
      some { g with learnRules := [], applyRules := [] } := by
  unfold containerCleanup
  simp only [hEn, Bool.not_true, Bool.false_eq_true, if_false]
  have hg' : alLookup (notifierCleanup w pid).groups pid = some g := hg
  split
  · next heq =>
    rw [hg'] at heq
    cases heq
  · next g0 heq =>
    rw [hg'] at heq
    cases Option.some.inj heq
    exact alLookup_insert_self ..

/-- C6: after `ContainerCleanup(rootPid, true)` the group entry is gone
and no pending event for a path of that container remains; after
`ContainerCleanup(rootPid, false)` on an existing group, the group
survives with both rule maps reset and every other field unchanged. -/
theorem c6_container_cleanup (w : FileWatch) (pid : Nat)
    (hEn : w.bEnable = true) :
    alLookup (containerCleanup w pid true).groups pid = none ∧
    (∀ p fm, alLookup (containerCleanup w pid true).fileEvents p = some fm →
      (parseContainerFilePath p).1 ≠ pid) ∧
    (∀ g, alLookup w.groups pid = some g →
      ∃ g', alLookup (containerCleanup w pid false).groups pid = some g' ∧
        g'.learnRules = [] ∧ g'.applyRules = [] ∧ g'.profile = g.profile ∧
        g'.mode = g.mode ∧ g'.startAt = g.startAt ∧
        g'.bNeuvector = g.bNeuvector) := by
  refine ⟨containerCleanup_groups_leave w pid hEn, ?_, ?_⟩
  · intro p fm h
    rw [containerCleanup_fileEvents w pid true hEn] at h
    have hmem := alLookup_mem _ _ _ h
    rw [List.mem_filter] at hmem
    simpa using hmem.2
  · intro g hg
    exact ⟨_, containerCleanup_groups_keep w pid g hEn hg,
      rfl, rfl, rfl, rfl, rfl, rfl⟩

/-- Two pending events, one for container 42 and one for container 7. -/
def wTwoEvents : FileWatch :=
  { wGrp with
    fileEvents :=
      [("/proc/42/root/etc/passwd", fmodHosts),
       ("/proc/7/root/etc/passwd", fmodHosts)] }

/-- C6 witness: cleaning container 42 out of `wTwoEvents` removes its
group and keeps exactly the container-7 event; the keep-variant resets
the rules of the surviving group. -/
theorem c6_container_cleanup_witness :
    wTwoEvents.bEnable = true ∧
    alLookup (containerCleanup wTwoEvents 42 true).groups 42 = none ∧
    (∀ p fm,
      alLookup (containerCleanup wTwoEvents 42 true).fileEvents p =
        some fm → (parseContainerFilePath p).1 ≠ 42) ∧
    (∃ g', alLookup (containerCleanup wTwoEvents 42 false).groups 42 =
        some g' ∧ g'.learnRules = [] ∧ g'.applyRules = [] ∧
        g'.profile = grpEval.profile ∧ g'.mode = grpEval.mode ∧
        g'.startAt = grpEval.startAt ∧ g'.bNeuvector = grpEval.bNeuvector) ∧
    (containerCleanup wTwoEvents 42 true).fileEvents =
      [("/proc/7/root/etc/passwd", fmodHosts)] :=
  ⟨rfl,
    (c6_container_cleanup wTwoEvents 42 rfl).1,
    (c6_container_cleanup wTwoEvents 42 rfl).2.1,
    (c6_container_cleanup wTwoEvents 42 rfl).2.2 grpEval rfl,
    by decide⟩

/-! ## C7 — create+delete within one window still reports a removal -/

/-- With the path gone and no moved bits, file classification yields
`fileEventRemoved` and releases the path. -/
theorem handleFileEvents_removed (env : Env) (w : FileWatch)
    (fmod : FileMod) (fp : String) (pid : Nat)
    (h : fmod.mask &&& inodeMovedMask = 0) :
    handleFileEvents env w fmod none fp pid =
      (fileEventRemoved, fmod, removeFile w fp) := by
  unfold handleFileEvents
  show (if fmod.mask &&& inodeMovedMask ≠ 0 then (fileEventMovedFrom, fmod, w)
      else (fileEventRemoved, fmod, removeFile w fp)) = _
  rw [if_neg (by simp [h])]

/-- The armed `/etc/passwd` target of container 42. -/
def finfoPasswd : FileInfoExt :=
  { containerId := "c1", path := "/proc/42/root/etc/passwd"
    isDirMode := false, link := "", hash := 0, protect := false
    userAdded := true, filterKey := "/etc/passwd/", filterRecursive := false }

/-- A pending event that saw both `IN_CREATE` and `IN_DELETE`. -/
def fmodCreDel : FileMod :=
  { mask := IN_CREATE ||| IN_DELETE, delay := 0, finfo := finfoPasswd
    pInfo := [] }

/-- The watcher holding only that pending event. -/
def wCreDel : FileWatch :=
  { wGrp with fileEvents := [("/proc/42/root/etc/passwd", fmodCreDel)] }

/-- C7 counterexample: a watched file path that accumulated exactly
`IN_CREATE | IN_DELETE` in the window and whose post-event `lstat`
misses produces one `FileRemoved` monitor message at the flush — not
zero. -/
theorem c7_create_delete_counterexample :
    wCreDel.fileEvents = [("/proc/42/root/etc/passwd", fmodCreDel)] ∧
    fmodCreDel.mask = (IN_CREATE ||| IN_DELETE) ∧
    envC.lstat "/proc/42/root/etc/passwd" = none ∧
    (handleWatchedFiles envC wCreDel 100).2.map (fun m => m.msg) =
      ["File deleted from watched directory."] := by
  exact ⟨rfl, rfl, rfl, by decide⟩

/-- C7 amended: under those window conditions (single pending entry,
create+delete mask and nothing else, post-event `lstat` missing, file
target, live container with a registered group, not a runtime-added
boot path, no recorded process info, no resolved link), the flush
emits exactly one message: the `FileRemoved` report. -/
theorem c7_create_delete_emits_removal (env : Env) (w : FileWatch)
    (now : Nat) (fp : String) (fmod : FileMod) (g : GroupInfo)
    (he : w.fileEvents = [(fp, fmod)])
    (hmask : fmod.mask = (IN_CREATE ||| IN_DELETE))
    (hdir : fmod.finfo.isDirMode = false)
    (hstat : env.lstat fp = none)
    (hpid : env.pidValid (parseContainerFilePath fp).1 = true)
    (hgrp : alLookup w.groups (parseContainerFilePath fp).1 = some g)
    (hrt : isRunTimeAddedFile
      (joinPath "/root" (parseContainerFilePath fp).2) = false)
    (hlink : fmod.finfo.link = "")
    (hpin : fmod.pInfo = []) :
    (handleWatchedFiles env w now).2.map (fun m => m.msg) =
      ["File deleted from watched directory."] := by
  unfold handleWatchedFiles
  rw [he, List.foldl_cons, List.foldl_nil]
  unfold handleOneEvent
  simp only [hpid, hstat, hdir, if_true, if_false, Bool.false_eq_true,
    Bool.false_or]
  rw [handleFileEvents_removed env _ fmod fp _ (by rw [hmask]; decide)]
  simp only []
  rw [if_pos (by decide : fileEventRemoved ≠ 0)]
  unfold learnFromEvents
  have hgrp0 : alLookup
      (removeFile { w with fileEvents := [] } fp).groups
      (parseContainerFilePath fp).1 = some g := hgrp
  simp only [hgrp0, hpin, hlink]
  rw [if_neg (by simp [hrt])]
  rw [if_pos (Or.inl (by decide : fileEventRemoved ≠ fileEventAccessed))]
  simp [sendMsg, fileEventMsg, mkPlainMsg, fileEventRemoved, fileEventAttr,
    fileEventDirAttr, fileEventModified, fileEventReplaced, fileEventCreate]

/-- C7 witness: the concrete create+delete window on
`/proc/42/root/etc/passwd` satisfies every side condition and flushes
to exactly the `FileRemoved` report. -/
theorem c7_create_delete_emits_removal_witness :
    wCreDel.fileEvents = [("/proc/42/root/etc/passwd", fmodCreDel)] ∧
    fmodCreDel.mask = (IN_CREATE ||| IN_DELETE) ∧
    envC.lstat "/proc/42/root/etc/passwd" = none ∧
    envC.pidValid
      (parseContainerFilePath "/proc/42/root/etc/passwd").1 = true ∧
    (handleWatchedFiles envC wCreDel 100).2.map (fun m => m.msg) =
      ["File deleted from watched directory."] :=
  ⟨rfl, rfl, rfl, by decide,
    c7_create_delete_emits_removal envC wCreDel 100
      "/proc/42/root/etc/passwd" fmodCreDel grpEval rfl rfl rfl rfl
      (by decide) (by decide) (by decide) rfl rfl⟩

/-! ## C2 — the learning step, and what it requires -/

theorem setContains_iff (s : List String) (y : String) :
    setContains s y = true ↔ y ∈ s := List.elem_iff

theorem setContains_append_iff (s : List String) (x y : String) :
    setContains (s ++ [x]) y = true ↔ setContains s y = true ∨ y = x := by
  rw [setContains_iff, List.mem_append]
  simp [setContains_iff]

theorem setAdd_contains_self (s : List String) (x : String) :
    setContains (setAdd s x) x = true := by
  unfold setAdd
  split
  · next h => exact h
  · exact (setContains_append_iff ..).2 (Or.inr rfl)

theorem setAdd_mono (s : List String) (x y : String)
    (h : setContains s y = true) : setContains (setAdd s x) y = true := by
  unfold setAdd
  split
  · exact h
  · exact (setContains_append_iff ..).2 (Or.inl h)

theorem procStep_mono (ar acc : List String) (pf : ProcInfo) (y : String)
    (h : setContains acc y = true) :
    setContains (procStep ar acc pf) y = true := by
  unfold procStep
  split
  · exact setAdd_mono _ _ _ h
  · exact h

theorem procFold_mono (ar : List String) (l : List ProcInfo)
    (acc : List String) (y : String) (h : setContains acc y = true) :
    setContains (l.foldl (procStep ar) acc) y = true := by
  induction l generalizing acc with
  | nil => exact h
  | cons pf t ih => exact ih _ (procStep_mono _ _ _ _ h)

/-- A process of the list with a nonempty path outside the apply set
ends up in the folded learned set. -/
theorem procFold_adds (ar : List String) (l : List ProcInfo)
    (acc : List String) (pi : ProcInfo) (hmem : pi ∈ l)
    (hne : pi.path ≠ "") (hap : setContains ar pi.path = false) :
    setContains (l.foldl (procStep ar) acc) pi.path = true := by
  induction l generalizing acc with
  | nil => cases hmem
  | cons pf t ih =>
    cases hmem with
    | head =>
      rw [List.foldl_cons]
      by_cases hacc : setContains acc pi.path = true
      · exact procFold_mono _ _ _ _ (procStep_mono _ _ _ _ hacc)
      · have hstep : procStep ar acc pi = setAdd acc pi.path := by
          unfold procStep
          rw [if_pos ⟨hne, by simp [hap], by simpa using hacc⟩]
        rw [hstep]
        exact procFold_mono _ _ _ _ (setAdd_contains_self ..)
    | tail _ hmem =>
      rw [List.foldl_cons]
      exact ih _ hmem

/-- Everything in the folded learned set was there before or lies
outside the apply set. -/
theorem procFold_subset (ar : List String) (l : List ProcInfo)
    (acc : List String) (x : String)
    (h : setContains (l.foldl (procStep ar) acc) x = true) :
    setContains acc x = true ∨ setContains ar x = false := by
  induction l generalizing acc with
  | nil => exact Or.inl h
  | cons pf t ih =>
    rw [List.foldl_cons] at h
    rcases ih _ h with h1 | h1
    · unfold procStep at h1
      split at h1
      · next hcond =>
        unfold setAdd at h1
        split at h1
        · exact Or.inl h1
        · rcases (setContains_append_iff ..).1 h1 with h2 | h2
          · exact Or.inl h2
          · subst h2
            right
            simpa using hcond.2.1
      · exact Or.inl h1
    · exact Or.inr h1

theorem addLearnedRules_applyRules (g : GroupInfo) (flt : MonitorFilter)
    (p : List ProcInfo) :
    (addLearnedRules g flt p).applyRules = g.applyRules := by
  rcases h : alLookup g.applyRules (filterIndexKey flt) with _ | ar <;>
    simp only [addLearnedRules, h]
  split <;> rfl

theorem learnStep_applyRules (path : String) (p : List ProcInfo)
    (g : GroupInfo) (flt : MonitorFilter) :
    (learnStep path p g flt).applyRules = g.applyRules := by
  unfold learnStep
  split
  · exact addLearnedRules_applyRules ..
  · rfl

/-- `addLearnedRules` on a filter whose key has an apply entry records
every observing nonempty process path outside that entry. -/
theorem addLearnedRules_adds (g : GroupInfo) (flt : MonitorFilter)
    (p : List ProcInfo) (ar : List String) (pi : ProcInfo)
    (har : alLookup g.applyRules (filterIndexKey flt) = some ar)
    (hmem : pi ∈ p) (hne : pi.path ≠ "")
    (hout : setContains ar pi.path = false) :
    ∃ lr, alLookup (addLearnedRules g flt p).learnRules
        (filterIndexKey flt) = some lr ∧
      setContains lr pi.path = true := by
  have hin := procFold_adds ar p
    ((alLookup g.learnRules (filterIndexKey flt)).getD []) pi hmem hne hout
  have hpos : 0 < setCard (p.foldl (procStep ar)
      ((alLookup g.learnRules (filterIndexKey flt)).getD [])) := by
    unfold setCard
    rcases hfold : p.foldl (procStep ar)
        ((alLookup g.learnRules (filterIndexKey flt)).getD []) with _ | ⟨a, t⟩
    · rw [hfold] at hin
      cases hin
    · simp
  simp only [addLearnedRules, har, hpos, if_true]
  exact ⟨_, alLookup_insert_self .., hin⟩

/-- `addLearnedRules` never removes a learned entry. -/
theorem addLearnedRules_mono (g : GroupInfo) (flt : MonitorFilter)
    (p : List ProcInfo) (k x : String) (lr : List String)
    (h1 : alLookup g.learnRules k = some lr)
    (h2 : setContains lr x = true) :
    ∃ lr', alLookup (addLearnedRules g flt p).learnRules k = some lr' ∧
      setContains lr' x = true := by
  rcases har : alLookup g.applyRules (filterIndexKey flt) with _ | ar
  · simp only [addLearnedRules, har]
    exact ⟨lr, h1, h2⟩
  · simp only [addLearnedRules, har]
    split
    · by_cases hk : filterIndexKey flt = k
      · subst hk
        refine ⟨_, alLookup_insert_self .., ?_⟩
        rw [h1]
        exact procFold_mono _ _ _ _ h2
      · exact ⟨lr, by rw [alLookup_insert_ne _ _ _ _ hk]; exact h1, h2⟩
    · exact ⟨lr, h1, h2⟩

theorem learnStep_mono (path : String) (p : List ProcInfo)
    (g : GroupInfo) (flt : MonitorFilter) (k x : String)
    (lr : List String) (h1 : alLookup g.learnRules k = some lr)
    (h2 : setContains lr x = true) :
    ∃ lr', alLookup (learnStep path p g flt).learnRules k = some lr' ∧
      setContains lr' x = true := by
  unfold learnStep
  split
  · exact addLearnedRules_mono g flt p k x lr h1 h2
  · exact ⟨lr, h1, h2⟩

theorem learnFold_mono (path : String) (p : List ProcInfo)
    (l : List MonitorFilter) (g : GroupInfo) (k x : String)
    (lr : List String) (h1 : alLookup g.learnRules k = some lr)
    (h2 : setContains lr x = true) :
    ∃ lr', alLookup (l.foldl (learnStep path p) g).learnRules k =
        some lr' ∧ setContains lr' x = true := by
  induction l generalizing g lr with
  | nil => exact ⟨lr, h1, h2⟩
  | cons flt t ih =>
    obtain ⟨lr', h1', h2'⟩ := learnStep_mono path p g flt k x lr h1 h2
    exact ih _ _ h1' h2'

theorem learnFold_applyRules (path : String) (p : List ProcInfo)
    (l : List MonitorFilter) (g : GroupInfo) :
    (l.foldl (learnStep path p)  g).applyRules = g.applyRules :=
  foldl_preserves (fun g => g.applyRules) (learnStep path p)
    (fun a b => learnStep_applyRules path p a b) l g

/-- Folding the learning step over a filter list containing a
customer-added, matching filter whose key has an apply entry records
the process path. -/
theorem learnFold_adds (path : String) (p : List ProcInfo)
    (l : List MonitorFilter) (g : GroupInfo) (flt : MonitorFilter)
    (ar : List String) (pi : ProcInfo) (hmem : flt ∈ l)
    (hca : flt.customerAdd = true) (hfm : filterPathMatch path flt = true)
    (har : alLookup g.applyRules (filterIndexKey flt) = some ar)
    (hpim : pi ∈ p) (hne : pi.path ≠ "")
    (hout : setContains ar pi.path = false) :
    ∃ lr, alLookup (l.foldl (learnStep path p) g).learnRules
        (filterIndexKey flt) = some lr ∧
      setContains lr pi.path = true := by
  induction l generalizing g with
  | nil => cases hmem
  | cons hd t ih =>
    cases hmem with
    | head =>
      rw [List.foldl_cons]
      have hstep : learnStep path p g flt = addLearnedRules g flt p := by
        unfold learnStep
        rw [if_pos (by rw [hca, hfm]; rfl)]
      rw [hstep]
      obtain ⟨lr, h1, h2⟩ :=
        addLearnedRules_adds g flt p ar pi har hpim hne hout
      exact learnFold_mono path p t _ _ _ lr h1 h2
    | tail _ hmem =>
      rw [List.foldl_cons]
      exact ih _ hmem (by rw [learnStep_applyRules]; exact har)

/-- The state component of `learnFromEvents`: the only mutation is the
learning pass, applied exactly in Learn mode with process info. -/
theorem learnFromEvents_state (env : Env) (w : FileWatch) (rootPid : Nat)
    (fmod : FileMod) (path : String) (event now : Nat) :
    (learnFromEvents env w rootPid fmod path event now).1 =
      match alLookup w.groups rootPid with
      | none => w
      | some grp =>
        if grp.mode = policyModeLearn ∧ fmod.pInfo ≠ [] then
          { w with
            groups := alInsert w.groups rootPid (learnPass grp path fmod.pInfo) }
        else w := by
  unfold learnFromEvents
  rcases h : alLookup w.groups rootPid with _ | grp <;> simp only [h]
  repeat' split
  all_goals rfl

theorem learnFold_skip (path : String) (p : List ProcInfo)
    (l : List MonitorFilter) (g : GroupInfo)
    (h : ∀ flt ∈ l,
      ¬(flt.customerAdd = true ∧ filterPathMatch path flt = true)) :
    l.foldl (learnStep path p) g = g := by
  induction l generalizing g with
  | nil => rfl
  | cons hd t ih =>
    rw [List.foldl_cons]
    have hstep : learnStep path p g hd = g := by
      unfold learnStep
      rw [if_neg (by
        simpa [Bool.and_eq_true] using h hd (List.mem_cons_self ..))]
    rw [hstep]
    exact ih _ (fun flt hf => h flt (List.mem_cons_of_mem _ hf))

/-- C2 (amended): on an aggregated event with process info in Learn
mode, for every customer-added filter (normal or CRD) accepted by the
match predicate *whose filter key has an entry in `apply_rules`*, each
observing process's nonempty path outside that entry ends up in
`learn_rules[filter_key]`; outside Learn mode the groups are untouched,
and when no customer-added filter matches, `learn_rules` is unchanged. -/
theorem c2_learning_engine (env : Env) (w : FileWatch) (rootPid : Nat)
    (fmod : FileMod) (path : String) (event now : Nat) (grp : GroupInfo)
    (hg : alLookup w.groups rootPid = some grp) :
    (grp.mode = policyModeLearn → fmod.pInfo ≠ [] →
      ∀ flt, (flt ∈ grp.profile.filters ∨ flt ∈ grp.profile.filtersCRD) →
      flt.customerAdd = true → filterPathMatch path flt = true →
      ∀ ar, alLookup grp.applyRules (filterIndexKey flt) = some ar →
      ∀ pi ∈ fmod.pInfo, pi.path ≠ "" → setContains ar pi.path = false →
      ∃ g' lr,
        alLookup (learnFromEvents env w rootPid fmod path event
          now).1.groups rootPid = some g' ∧
        alLookup g'.learnRules (filterIndexKey flt) = some lr ∧
        setContains lr pi.path = true) ∧
    (grp.mode ≠ policyModeLearn →
      (learnFromEvents env w rootPid fmod path event now).1.groups =
        w.groups) ∧
    ((∀ flt, (flt ∈ grp.profile.filters ∨ flt ∈ grp.profile.filtersCRD) →
        ¬(flt.customerAdd = true ∧ filterPathMatch path flt = true)) →
      ∃ g', alLookup (learnFromEvents env w rootPid fmod path event
          now).1.groups rootPid = some g' ∧
        g'.learnRules = grp.learnRules) := by
  refine ⟨?_, ?_, ?_⟩
  · intro hmode hpin flt hflt hca hfm ar har pi hpim hne hout
    simp only [learnFromEvents_state, hg]
    rw [if_pos ⟨hmode, hpin⟩]
    refine ⟨learnPass grp path fmod.pInfo, ?_⟩
    have hmain : ∃ lr,
        alLookup (learnPass grp path fmod.pInfo).learnRules
          (filterIndexKey flt) = some lr ∧
        setContains lr pi.path = true := by
      unfold learnPass
      rcases hflt with hin | hin
      · obtain ⟨lr, h1, h2⟩ := learnFold_adds path fmod.pInfo
          grp.profile.filters grp flt ar pi hin hca hfm har hpim hne hout
        exact learnFold_mono path fmod.pInfo _ _ _ _ lr h1 h2
      · exact learnFold_adds path fmod.pInfo grp.profile.filtersCRD _
          flt ar pi hin hca hfm
          (by rw [learnFold_applyRules]; exact har) hpim hne hout
    obtain ⟨lr, h1, h2⟩ := hmain
    exact ⟨lr, alLookup_insert_self .., h1, h2⟩
  · intro hmode
    simp only [learnFromEvents_state, hg]
    rw [if_neg (fun hc => hmode hc.1)]
  · intro hnone
    have e1 : grp.profile.filters.foldl (learnStep path fmod.pInfo) grp =
        grp :=
      learnFold_skip path fmod.pInfo _ _
        (fun flt hf => hnone flt (Or.inl hf))
    have e2 : learnPass grp path fmod.pInfo = grp := by
      unfold learnPass
      rw [e1]
      exact learnFold_skip path fmod.pInfo _ _
        (fun flt hf => hnone flt (Or.inr hf))
    simp only [learnFromEvents_state, hg]
    split
    · exact ⟨grp, by rw [e2]; exact alLookup_insert_self .., rfl⟩
    · exact ⟨grp, hg, rfl⟩

/-- The process `/usr/bin/foo` observing a file operation. -/
def procFoo : ProcInfo :=
  { rootPid := 42, name := "foo", path := "/usr/bin/foo", cmds := []
    pid := 7, euid := 0, euser := "", ppid := 1, pname := "", ppath := ""
    deny := false }

/-- A Learn-mode profile with the customer filter `/etc/passwd`. -/
def profPasswd : MonitorProfile :=
  { group := "g0", mode := policyModeLearn, filters := [fltPasswd]
    filtersCRD := [] }

/-- A Learn-mode group with *no* apply-rules entry at all. -/
def grpLearnNA : GroupInfo :=
  { bNeuvector := false, profile := profPasswd, mode := policyModeLearn
    applyRules := [], learnRules := [], startAt := 0 }

/-- Watcher holding `grpLearnNA` for pid 42. -/
def wLearnNA : FileWatch := { wEmpty with groups := [(42, grpLearnNA)] }

/-- A pending close-write on `/etc/passwd` observed by `/usr/bin/foo`. -/
def fmodFoo : FileMod :=
  { mask := IN_CLOSE_WRITE, delay := 0, finfo := finfoPasswd
    pInfo := [procFoo] }

/-- C2 counterexample: Learn mode, a matching customer-added filter and
a nonempty process path not in `apply_rules[filter_key]` — yet nothing
is learned, because `apply_rules` has no entry for the key at all
(`addLearnedRules`' missing-index branch). -/
theorem c2_learning_counterexample :
    grpLearnNA.mode = policyModeLearn ∧
    fltPasswd.customerAdd = true ∧
    filterPathMatch "/etc/passwd" fltPasswd = true ∧
    procFoo.path = "/usr/bin/foo" ∧
    alLookup grpLearnNA.applyRules (filterIndexKey fltPasswd) = none ∧
    (learnFromEvents envC wLearnNA 42 fmodFoo "/etc/passwd"
      fileEventModified 100).1.groups = [(42, grpLearnNA)] ∧
    alLookup grpLearnNA.learnRules (filterIndexKey fltPasswd) = none := by
  exact ⟨rfl, rfl, by decide, rfl, rfl, by decide, rfl⟩

/-- The same group with an (empty) apply-rules entry for the key. -/
def grpLearnA : GroupInfo :=
  { grpLearnNA with applyRules := [("/etc/passwd/", [])] }

/-- Watcher holding `grpLearnA` for pid 42. -/
def wLearnA : FileWatch := { wEmpty with groups := [(42, grpLearnA)] }

/-- C2 witness: with the apply entry present, handling the event in
Learn mode records `/usr/bin/foo` under `/etc/passwd/`. -/
theorem c2_learning_engine_witness :
    alLookup wLearnA.groups 42 = some grpLearnA ∧
    (∃ g' lr,
      alLookup (learnFromEvents envC wLearnA 42 fmodFoo "/etc/passwd"
        fileEventModified 100).1.groups 42 = some g' ∧
      alLookup g'.learnRules (filterIndexKey fltPasswd) = some lr ∧
      setContains lr "/usr/bin/foo" = true) :=
  ⟨rfl,
    (c2_learning_engine envC wLearnA 42 fmodFoo "/etc/passwd"
        fileEventModified 100 grpLearnA rfl).1 rfl (by decide) fltPasswd
      (Or.inl (List.mem_cons_self ..)) rfl (by decide) []
      rfl procFoo (List.mem_cons_self ..) (by decide) rfl⟩

/-! ## C1 — disjointness of learned and applied rules -/

/-- `learn_rules[f] ∩ apply_rules[f] = ∅` for every filter key `f`
(a missing key denotes the empty set). -/
def ruleDisjoint (g : GroupInfo) : Prop :=
  ∀ k x, setContains ((alLookup g.learnRules k).getD []) x = true →
    setContains ((alLookup g.applyRules k).getD []) x = false

/-- Every registered group's rule sets are disjoint. -/
def invariantDisjoint (w : FileWatch) : Prop :=
  ∀ pid g, alLookup w.groups pid = some g → ruleDisjoint g

/-- The state `NewFileWatcher` constructs: all maps empty. -/
def initialWatch (bE au bNV : Bool) : FileWatch :=
  { bEnable := bE, aufs := au, bNVProtect := bNV
    fileEvents := [], groups := []
    fanPaths := [], fanDirs := [], inoPaths := [], inoDirs := []
    fanModes := [], fanRules := [] }

/-- One public operation of the monitor, as a step relation. -/
inductive FwStep (env : Env) : FileWatch → FileWatch → Prop
  | start (w : FileWatch) (id : String) (rootPid : Nat)
      (conf : FsmonConfig) (capBlock bNV : Bool) (now : Nat) :
      FwStep env w (startWatch env w id rootPid conf capBlock bNV now)
  | update (w : FileWatch) (name : String) (rootPid : Nat)
      (conf : AccessRule) :
      FwStep env w (updateAccessRules w name rootPid conf)
  | flush (w : FileWatch) (now : Nat) :
      FwStep env w (handleWatchedFiles env w now).1
  | report (w : FileWatch) : FwStep env w (reportLearningRules w).1
  | cleanup (w : FileWatch) (rootPid : Nat) (bLeave : Bool) :
      FwStep env w (containerCleanup w rootPid bLeave)
  | notify (w : FileWatch) (fp : String) (mask : Nat)
      (finfo : FileInfoExt) (pInfo : Option ProcInfo) :
      FwStep env w (cbNotify w fp mask finfo pInfo)

/-- States reachable from a freshly constructed watcher. -/
inductive FwReach (env : Env) : FileWatch → Prop
  | init (bE au bNV : Bool) : FwReach env (initialWatch bE au bNV)
  | step {w w' : FileWatch} : FwReach env w → FwStep env w w' →
      FwReach env w'

/-- A rule push is harmless when the target group has nothing learned
(the condition under which `UpdateAccessRules` keeps the two maps
disjoint). -/
def updateSafe (w : FileWatch) (rootPid : Nat) : Prop :=
  ∀ g, alLookup w.groups rootPid = some g → g.learnRules = []

/-- The step relation with every rule push (`UpdateAccessRules`, also
the one inside `StartWatch`) guarded by `updateSafe`. -/
inductive FwStepSafe (env : Env) : FileWatch → FileWatch → Prop
  | start (w : FileWatch) (id : String) (rootPid : Nat)
      (conf : FsmonConfig) (capBlock bNV : Bool) (now : Nat)
      (h : conf.rule = none ∨ updateSafe w rootPid) :
      FwStepSafe env w (startWatch env w id rootPid conf capBlock bNV now)
  | update (w : FileWatch) (name : String) (rootPid : Nat)
      (conf : AccessRule) (h : updateSafe w rootPid) :
      FwStepSafe env w (updateAccessRules w name rootPid conf)
  | flush (w : FileWatch) (now : Nat) :
      FwStepSafe env w (handleWatchedFiles env w now).1
  | report (w : FileWatch) : FwStepSafe env w (reportLearningRules w).1
  | cleanup (w : FileWatch) (rootPid : Nat) (bLeave : Bool) :
      FwStepSafe env w (containerCleanup w rootPid bLeave)
  | notify (w : FileWatch) (fp : String) (mask : Nat)
      (finfo : FileInfoExt) (pInfo : Option ProcInfo) :
      FwStepSafe env w (cbNotify w fp mask finfo pInfo)

/-- Reachability along guarded steps. -/
inductive FwReachSafe (env : Env) : FileWatch → Prop
  | init (bE au bNV : Bool) : FwReachSafe env (initialWatch bE au bNV)
  | step {w w' : FileWatch} : FwReachSafe env w → FwStepSafe env w w' →
      FwReachSafe env w'

/-- A group with nothing learned is trivially disjoint. -/
theorem ruleDisjoint_of_empty (g : GroupInfo) (h : g.learnRules = []) :
    ruleDisjoint g := by
  intro k x hx
  rw [h] at hx
  cases hx

/-- Replacing only the learned map keeps `ruleDisjoint` a statement
about the new map against the old apply map. -/
theorem ruleDisjoint_update_learn (g : GroupInfo)
    (lrm : List (String × List String))
    (h : ∀ k x, setContains ((alLookup lrm k).getD []) x = true →
      setContains ((alLookup g.applyRules k).getD []) x = false) :
    ruleDisjoint { g with learnRules := lrm } := h

/-- `addLearnedRules` preserves disjointness: it inserts only paths
outside the apply set. -/
theorem addLearnedRules_disjoint (g : GroupInfo) (flt : MonitorFilter)
    (p : List ProcInfo) (hd : ruleDisjoint g) :
    ruleDisjoint (addLearnedRules g flt p) := by
  rcases har : alLookup g.applyRules (filterIndexKey flt) with _ | ar
  · simp only [addLearnedRules, har]
    exact hd
  · simp only [addLearnedRules, har]
    split
    · refine ruleDisjoint_update_learn g _ (fun k x hx => ?_)
      by_cases hk : filterIndexKey flt = k
      · subst hk
        rw [alLookup_insert_self] at hx
        simp only [Option.getD_some] at hx
        rcases procFold_subset ar p _ x hx with h1 | h1
        · exact hd (filterIndexKey flt) x h1
        · rwa [har, Option.getD_some]
      · rw [alLookup_insert_ne _ _ _ _ hk] at hx
        exact hd k x hx
    · exact hd

theorem learnStep_disjoint (path : String) (p : List ProcInfo)
    (g : GroupInfo) (flt : MonitorFilter) (hd : ruleDisjoint g) :
    ruleDisjoint (learnStep path p g flt) := by
  unfold learnStep
  split
  · exact addLearnedRules_disjoint g flt p hd
  · exact hd

theorem learnFold_disjoint (path : String) (p : List ProcInfo)
    (l : List MonitorFilter) (g : GroupInfo) (hd : ruleDisjoint g) :
    ruleDisjoint (l.foldl (learnStep path p) g) := by
  induction l generalizing g with
  | nil => exact hd
  | cons hd' t ih => exact ih _ (learnStep_disjoint path p g hd' hd)

theorem learnPass_disjoint (grp : GroupInfo) (path : String)
    (p : List ProcInfo) (hd : ruleDisjoint grp) :
    ruleDisjoint (learnPass grp path p) := by
  unfold learnPass
  exact learnFold_disjoint _ _ _ _ (learnFold_disjoint _ _ _ _ hd)

theorem learnFromEvents_invariant (env : Env) (w : FileWatch)
    (rootPid : Nat) (fmod : FileMod) (path : String) (event now : Nat)
    (hI : invariantDisjoint w) :
    invariantDisjoint (learnFromEvents env w rootPid fmod path event
      now).1 := by
  rw [learnFromEvents_state]
  rcases hg : alLookup w.groups rootPid with _ | grp <;> simp only [hg]
  · exact hI
  · split
    · intro pid g hpg
      by_cases hp : rootPid = pid
      · subst hp
        rw [show alLookup (alInsert w.groups rootPid
            (learnPass grp path fmod.pInfo)) rootPid =
            some (learnPass grp path fmod.pInfo) from
            alLookup_insert_self ..] at hpg
        cases Option.some.inj hpg
        exact learnPass_disjoint grp path fmod.pInfo (hI rootPid grp hg)
      · rw [show alLookup (alInsert w.groups rootPid
            (learnPass grp path fmod.pInfo)) pid =
            alLookup w.groups pid from
            alLookup_insert_ne _ _ _ _ hp] at hpg
        exact hI pid g hpg
    · exact hI

theorem handleOneEvent_invariant (env : Env) (now : Nat)
    (acc : FileWatch × List MonitorMessage) (kv : String × FileMod)
    (hI : invariantDisjoint acc.1) :
    invariantDisjoint (handleOneEvent env now acc kv).1 := by
  simp only [handleOneEvent]
  split
  · split
    · -- directory target
      split
      · refine learnFromEvents_invariant _ _ _ _ _ _ _ ?_
        intro pid g hpg
        rw [handleDirEvents_groups] at hpg
        exact hI pid g hpg
      · intro pid g hpg
        rw [show ((handleDirEvents env acc.1 kv.2 (env.lstat kv.1) kv.1
            (parseContainerFilePath kv.1).2
            (parseContainerFilePath kv.1).1).2.2, acc.2).1 =
            (handleDirEvents env acc.1 kv.2 (env.lstat kv.1) kv.1
            (parseContainerFilePath kv.1).2
            (parseContainerFilePath kv.1).1).2.2 from rfl,
          handleDirEvents_groups] at hpg
        exact hI pid g hpg
    · -- file target
      split
      · refine learnFromEvents_invariant _ _ _ _ _ _ _ ?_
        intro pid g hpg
        rw [handleFileEvents_groups] at hpg
        exact hI pid g hpg
      · intro pid g hpg
        rw [show ((handleFileEvents env acc.1 kv.2 (env.lstat kv.1) kv.1
            (parseContainerFilePath kv.1).1).2.2, acc.2).1 =
            (handleFileEvents env acc.1 kv.2 (env.lstat kv.1) kv.1
            (parseContainerFilePath kv.1).1).2.2 from rfl,
          handleFileEvents_groups] at hpg
        exact hI pid g hpg
  · exact hI

theorem handleWatchedFiles_invariant (env : Env) (w : FileWatch)
    (now : Nat) (hI : invariantDisjoint w) :
    invariantDisjoint (handleWatchedFiles env w now).1 := by
  unfold handleWatchedFiles
  have : ∀ (l : List (String × FileMod))
      (acc : FileWatch × List MonitorMessage), invariantDisjoint acc.1 →
      invariantDisjoint (l.foldl (handleOneEvent env now) acc).1 := by
    intro l
    induction l with
    | nil => intro acc h; exact h
    | cons kv t ih =>
      intro acc h
      exact ih _ (handleOneEvent_invariant env now acc kv h)
  exact this _ _ hI

theorem updateAccessRules_invariant (w : FileWatch) (n : String)
    (p : Nat) (c : AccessRule) (hI : invariantDisjoint w)
    (hSafe : updateSafe w p) :
    invariantDisjoint (updateAccessRules w n p c) := by
  unfold updateAccessRules
  split
  · exact hI
  · rcases hg : alLookup w.groups p with _ | grp
    · simp only [hg]
      exact hI
    · simp only [hg]
      intro pid g hpg
      by_cases hp : p = pid
      · subst hp
        rw [alLookup_insert_self] at hpg
        cases Option.some.inj hpg
        exact ruleDisjoint_of_empty _ (hSafe grp hg)
      · rw [alLookup_insert_ne _ _ _ _ hp] at hpg
        exact hI pid g hpg

/-- Whether a group gets its learned map reset at report time. -/
def resetLearned (g : GroupInfo) : GroupInfo :=
  if g.learnRules ≠ [] then { g with learnRules := [] } else g

theorem reportStep_fst (acc : List (Nat × GroupInfo) × List AccessRuleReq)
    (kv : Nat × GroupInfo) :
    (reportStep acc kv).1 = acc.1 ++ [(kv.1, resetLearned kv.2)] := by
  unfold reportStep resetLearned
  split
  · next h => rw [if_pos h]
  · next h => rw [if_neg h]

theorem reportFold_fst (l : List (Nat × GroupInfo))
    (acc : List (Nat × GroupInfo) × List AccessRuleReq) :
    (l.foldl reportStep acc).1 =
      acc.1 ++ l.map (fun kv => (kv.1, resetLearned kv.2)) := by
  induction l generalizing acc with
  | nil => rw [List.foldl_nil, List.map_nil, List.append_nil]
  | cons kv t ih =>
    rw [List.foldl_cons, ih, reportStep_fst]
    simp

theorem alLookup_map_val {κ α : Type} [DecidableEq κ] (vf : α → α)
    (l : List (κ × α)) (k : κ) :
    alLookup (l.map (fun kv => (kv.1, vf kv.2))) k =
      (alLookup l k).map vf := by
  induction l with
  | nil => rfl
  | cons kv t ih =>
    unfold alLookup
    by_cases hk : kv.1 = k <;> simp [hk, ih]

theorem reportLearningRules_invariant (w : FileWatch)
    (hI : invariantDisjoint w) :
    invariantDisjoint (reportLearningRules w).1 := by
  intro pid g hpg
  have hg : alLookup (reportLearningRules w).1.groups pid =
      (alLookup w.groups pid).map resetLearned := by
    show alLookup (w.groups.foldl reportStep ([], [])).1 pid = _
    rw [reportFold_fst, List.nil_append, alLookup_map_val]
  rw [hg] at hpg
  rcases h0 : alLookup w.groups pid with _ | g0
  · rw [h0] at hpg
    cases hpg
  · rw [h0] at hpg
    cases Option.some.inj (show some (resetLearned g0) = some g from hpg)
    unfold resetLearned
    split
    · exact ruleDisjoint_of_empty _ rfl
    · exact hI pid g0 h0

theorem cbNotify_groups (w : FileWatch) (fp : String) (mask : Nat)
    (finfo : FileInfoExt) (pInfo : Option ProcInfo) :
    (cbNotify w fp mask finfo pInfo).groups = w.groups := by
  unfold cbNotify
  repeat' split
  all_goals rfl

theorem cbNotify_invariant (w : FileWatch) (fp : String) (mask : Nat)
    (finfo : FileInfoExt) (pInfo : Option ProcInfo)
    (hI : invariantDisjoint w) :
    invariantDisjoint (cbNotify w fp mask finfo pInfo) := by
  intro pid g hpg
  rw [cbNotify_groups] at hpg
  exact hI pid g hpg

/-- The groups component of `ContainerCleanup`. -/
theorem containerCleanup_groups (w : FileWatch) (p : Nat) (bLeave : Bool)
    (hEn : w.bEnable = true) :
    (containerCleanup w p bLeave).groups =
      (match alLookup w.groups p with
        | none => w.groups
        | some grp =>
          if bLeave then alErase w.groups p
          else alInsert w.groups p
            { grp with learnRules := [], applyRules := [] }) := by
  unfold containerCleanup
  simp only [hEn, Bool.not_true, Bool.false_eq_true, if_false]
  rcases hg : alLookup w.groups p with _ | g
  · have hg' : alLookup (notifierCleanup w p).groups p = none := hg
    simp only [hg', hg]
    rfl
  · have hg' : alLookup (notifierCleanup w p).groups p = some g := hg
    simp only [hg', hg]
    split <;> rfl

theorem containerCleanup_invariant (w : FileWatch) (p : Nat)
    (bLeave : Bool) (hI : invariantDisjoint w) :
    invariantDisjoint (containerCleanup w p bLeave) := by
  by_cases hEn : w.bEnable = true
  · intro pid g hpg
    rw [containerCleanup_groups w p bLeave hEn] at hpg
    rcases hg : alLookup w.groups p with _ | g0 <;> simp only [hg] at hpg
    · exact hI pid g hpg
    · split at hpg
      · by_cases hp : p = pid
        · subst hp
          rw [alLookup_erase_self] at hpg
          cases hpg
        · rw [alLookup_erase_ne _ _ _ hp] at hpg
          exact hI pid g hpg
      · by_cases hp : p = pid
        · subst hp
          rw [alLookup_insert_self] at hpg
          cases Option.some.inj hpg
          exact ruleDisjoint_of_empty _ rfl
        · rw [alLookup_insert_ne _ _ _ _ hp] at hpg
          exact hI pid g hpg
  · have hEn' : w.bEnable = false := by simpa using hEn
    unfold containerCleanup
    simp only [hEn', Bool.not_false, if_true]
    exact hI

theorem startWatchGroups_groups (w2 : FileWatch) (rootPid : Nat)
    (profile : MonitorProfile) (mode : String) (bNV : Bool) (now : Nat) :
    (startWatchGroups w2 rootPid profile mode bNV now).groups =
      alInsert w2.groups rootPid
        (match alLookup w2.groups rootPid with
         | some g => { g with profile := profile, mode := mode }
         | none =>
           { bNeuvector := bNV, profile := profile, mode := mode
             applyRules := [], learnRules := [], startAt := now }) := rfl

theorem startWatchGroups_invariant (w2 : FileWatch) (rootPid : Nat)
    (profile : MonitorProfile) (mode : String) (bNV : Bool) (now : Nat)
    (hI : invariantDisjoint w2) :
    invariantDisjoint (startWatchGroups w2 rootPid profile mode bNV now) := by
  intro pid g hpg
  rw [startWatchGroups_groups] at hpg
  by_cases hp : rootPid = pid
  · subst hp
    rw [alLookup_insert_self] at hpg
    cases Option.some.inj hpg
    rcases hg2 : alLookup w2.groups rootPid with _ | g0 <;> simp only [hg2]
    · exact ruleDisjoint_of_empty _ rfl
    · exact hI rootPid g0 hg2
  · rw [alLookup_insert_ne _ _ _ _ hp] at hpg
    exact hI pid g hpg

theorem startWatchGroups_updateSafe (w2 : FileWatch) (rootPid : Nat)
    (profile : MonitorProfile) (mode : String) (bNV : Bool) (now : Nat)
    (h : updateSafe w2 rootPid) :
    updateSafe (startWatchGroups w2 rootPid profile mode bNV now)
      rootPid := by
  intro g hg
  rw [startWatchGroups_groups, alLookup_insert_self] at hg
  cases Option.some.inj hg
  rcases hg2 : alLookup w2.groups rootPid with _ | g0
  · simp only [hg2]
  · simp only [hg2]
    exact h g0 hg2

theorem startWatch_invariant (env : Env) (w : FileWatch) (id : String)
    (rootPid : Nat) (conf : FsmonConfig) (capBlock bNV : Bool) (now : Nat)
    (hI : invariantDisjoint w)
    (hguard : conf.rule = none ∨ updateSafe w rootPid) :
    invariantDisjoint (startWatch env w id rootPid conf capBlock bNV
      now) := by
  have hinv2 : ∀ (w2 : FileWatch), w2.groups = w.groups →
      invariantDisjoint w2 :=
    fun w2 h2 pid g hpg => hI pid g (h2 ▸ hpg)
  unfold startWatch
  split
  · exact hI
  · split
    · exact hI
    · dsimp only
      split
      · exact startWatchGroups_invariant _ _ _ _ _ _
          (hinv2 _ (by rw [addCoreFile_groups]; rfl))
      · split
        · next rule heq =>
          refine updateAccessRules_invariant _ _ _ _ ?_ ?_
          · exact startWatchGroups_invariant _ _ _ _ _ _
              (hinv2 _ (by rw [addCoreFile_groups]; rfl))
          · refine startWatchGroups_updateSafe _ _ _ _ _ _ ?_
            intro g hg
            rcases hguard with hnone | hsafe
            · rw [hnone] at heq
              cases heq
            · refine hsafe g ?_
              rw [show (addCoreFile
                  (fanSetMode w rootPid
                    (if ((if conf.profile.mode = "" then policyModeLearn
                        else conf.profile.mode) == policyModeEnforce) &&
                        !w.aufs && capBlock then false
                      else if (rootPid == 1) || bNV then false
                      else (if conf.profile.mode = "" then policyModeLearn
                        else conf.profile.mode) == policyModeLearn)
                    (((if conf.profile.mode = "" then policyModeLearn
                        else conf.profile.mode) == policyModeEnforce) &&
                      !w.aufs && capBlock) capBlock bNV)
                  (!bNV) id
                  (getCoreFile env id rootPid
                    { conf.profile with
                      mode := if conf.profile.mode = "" then policyModeLearn
                        else conf.profile.mode }).1
                  (getCoreFile env id rootPid
                    { conf.profile with
                      mode := if conf.profile.mode = "" then policyModeLearn
                        else conf.profile.mode }).2).groups = w.groups
                from by rw [addCoreFile_groups]; rfl] at hg
              exact hg
        · exact startWatchGroups_invariant _ _ _ _ _ _
            (hinv2 _ (by rw [addCoreFile_groups]; rfl))

/-- C1 (amended): along any sequence of `StartWatch`, event merges,
flushes, learning-rule reports and cleanups in which every access-rule
push (`UpdateAccessRules`, directly or from inside `StartWatch`)
happens while the target group has nothing learned, every group's
`learn_rules[f]` and `apply_rules[f]` stay disjoint for every filter
key `f`. -/
theorem c1_disjoint_invariant (env : Env) (w : FileWatch)
    (h : FwReachSafe env w) : invariantDisjoint w := by
  induction h with
  | init bE au bNV =>
    intro pid g hpg
    cases hpg
  | step hr hs ih =>
    cases hs with
    | start id rootPid conf capBlock bNV now hguard =>
      exact startWatch_invariant _ _ _ _ _ _ _ _ ih hguard
    | update name rootPid conf hsafe =>
      exact updateAccessRules_invariant _ _ _ _ ih hsafe
    | flush now => exact handleWatchedFiles_invariant _ _ _ ih
    | report => exact reportLearningRules_invariant _ ih
    | cleanup rootPid bLeave => exact containerCleanup_invariant _ _ _ ih
    | notify fp mask finfo pInfo => exact cbNotify_invariant _ _ _ _ _ ih

/-- The initial empty apply entry pushed at `StartWatch` time. -/
def ruleEmptyApps : AccessRule :=
  { filters := [("/etc/passwd/", { apps := [], customerAdd := true })] }

/-- A later rule push whose app list holds the learned process. -/
def ruleFooApps : AccessRule :=
  { filters :=
      [("/etc/passwd/", { apps := ["/usr/bin/foo"], customerAdd := true })] }

/-- The Learn-mode start configuration used by the counterexample. -/
def confLearn : FsmonConfig :=
  { profile := profPasswd, rule := some ruleEmptyApps }

/-- State after `StartWatch` of container 42. -/
def wS1 : FileWatch :=
  startWatch envC (initialWatch true false false) "c1" 42 confLearn
    false false 0

/-- State after the fanotify callback delivered a close-write on
`/etc/passwd` observed by `/usr/bin/foo`. -/
def wS2 : FileWatch :=
  cbNotify wS1 "/proc/42/root/etc/passwd" IN_CLOSE_WRITE finfoPasswd
    (some procFoo)

/-- State after the 4-second flush learned `/usr/bin/foo`. -/
def wS3 : FileWatch := (handleWatchedFiles envC wS2 10).1

/-- State after a rule push re-introducing `/usr/bin/foo` into
`apply_rules` while it is still in `learn_rules`. -/
def wS4 : FileWatch := updateAccessRules wS3 "g0" 42 ruleFooApps

/-- C1 counterexample: the state `wS4` is reachable through
`StartWatch`, an event callback, a flush and an `UpdateAccessRules`
call, yet `/usr/bin/foo` sits in both `learn_rules["/etc/passwd/"]`
and `apply_rules["/etc/passwd/"]` of group 42 — the sets are not
disjoint, because `UpdateAccessRules` replaces `apply_rules` without
touching `learn_rules`. -/
theorem c1_disjoint_counterexample :
    FwReach envC wS4 ∧
    (alLookup wS4.groups 42).map (fun g =>
      (setContains ((alLookup g.learnRules "/etc/passwd/").getD [])
          "/usr/bin/foo",
       setContains ((alLookup g.applyRules "/etc/passwd/").getD [])
          "/usr/bin/foo")) = some (true, true) := by
  constructor
  · exact FwReach.step (FwReach.step (FwReach.step (FwReach.step
      (FwReach.init true false false)
      (FwStep.start _ "c1" 42 confLearn false false 0))
      (FwStep.notify _ "/proc/42/root/etc/passwd" IN_CLOSE_WRITE
        finfoPasswd (some procFoo)))
      (FwStep.flush _ 10))
      (FwStep.update _ "g0" 42 ruleFooApps)
  · decide

/-- C1 witness: the prefix of the same run that stops before the rule
push is reachable through guarded steps, so the amended invariant
applies to it. -/
theorem c1_disjoint_invariant_witness :
    FwReachSafe envC wS3 ∧ invariantDisjoint wS3 := by
  have hreach : FwReachSafe envC wS3 :=
    FwReachSafe.step (FwReachSafe.step (FwReachSafe.step
      (FwReachSafe.init true false false)
      (FwStepSafe.start _ "c1" 42 confLearn false false 0
        (Or.inr (fun g hg => nomatch hg))))
      (FwStepSafe.notify _ "/proc/42/root/etc/passwd" IN_CLOSE_WRITE
        finfoPasswd (some procFoo)))
      (FwStepSafe.flush _ 10)
  exact ⟨hreach, c1_disjoint_invariant envC wS3 hreach⟩

end Fsmon
